import Mathlib

/-!
# Verification of the openapi-merge engine

A shallow embedding of the Rust sources under `src/` (the merge engine that
combines several OpenAPI 3.0 documents into one), together with theorems
settling the specification claims about it.

Conventions of the embedding:
* `IndexMap<String, T>` becomes an association list `IndexMap T` with
  insert-or-replace-in-place semantics (matching indexmap's `insert`).
* `HashSet<String>` becomes a `List String` used as a set.
* `std::collections::HashMap<String,String>` (the reference rewrite table)
  becomes an association list; only `get`, `insert` (overwrite) and a
  prefix-key search are used by the source, all order-independent except in
  a branch where the source panics.
* Fallible Rust functions returning `Result<_, ErrorMergeResult>` become
  `Except ErrorMergeResult _`.
-/

set_option autoImplicit false

namespace OpenapiMerge

/-- A JSON value, used for the payload of OpenAPI nodes whose inner structure
the engine never inspects (examples, links, security schemes, servers, ...). -/
inductive Json where
  | null : Json
  | bool (b : Bool) : Json
  | num (n : Int) : Json
  | str (s : String) : Json
  | arr (xs : List Json) : Json
  | obj (fields : List (String × Json)) : Json

/-- `openapiv3::ReferenceOr<T>`: either a `$ref` string or an inline item. -/
inductive RefOr (α : Type) where
  | reference (ref : String) : RefOr α
  | item (a : α) : RefOr α

/-- `ReferenceOr<Schema>` flattened into one inductive: a schema slot is either
a `$ref` or an inline schema whose `schema_kind` is one of
`Type(Object | Array | String | Number | Integer | Boolean)`,
`OneOf`, `AllOf`, `AnyOf`, `Not` or `Any` (openapiv3's `SchemaKind`).
`additionalProperties` keeps only the `AdditionalProperties::Schema` case
(the `Any(bool)` case carries no references and is dropped). -/
inductive SchemaRO where
  | reference (ref : String) : SchemaRO
  | objectT (properties : List (String × SchemaRO))
      (additionalProperties : Option SchemaRO) : SchemaRO
  | arrayT (items : Option SchemaRO) : SchemaRO
  | stringT : SchemaRO
  | numberT : SchemaRO
  | integerT : SchemaRO
  | booleanT : SchemaRO
  | oneOf (xs : List SchemaRO) : SchemaRO
  | allOf (xs : List SchemaRO) : SchemaRO
  | anyOf (xs : List SchemaRO) : SchemaRO
  | notS (x : SchemaRO) : SchemaRO
  | anySchema (properties : List (String × SchemaRO))
      (additionalProperties : Option SchemaRO)
      (items : Option SchemaRO)
      (oneOf allOf anyOf : List SchemaRO)
      (notS : Option SchemaRO) : SchemaRO

/-- `openapiv3::Example`; its body carries no walkable references. -/
structure Example where
  value : Option Json

/-- `openapiv3::Link`; its body carries no walkable references. -/
structure Link where
  payload : Json

/-- `openapiv3::MediaType`, restricted to the fields the engine touches. -/
structure MediaType where
  schema : Option SchemaRO
  examples : List (String × RefOr Example)

/-- `openapiv3::ParameterSchemaOrContent`. -/
inductive ParameterSchemaOrContent where
  | schema (s : SchemaRO) : ParameterSchemaOrContent
  | content (c : List (String × MediaType)) : ParameterSchemaOrContent

/-- `openapiv3::ParameterData`, restricted to the fields the engine touches. -/
structure ParameterData where
  name : String
  format : ParameterSchemaOrContent
  examples : List (String × RefOr Example)

/-- `openapiv3::Parameter`: a four-variant sum sharing `parameter_data`. -/
inductive Parameter where
  | query (parameterData : ParameterData) : Parameter
  | header (parameterData : ParameterData) : Parameter
  | path (parameterData : ParameterData) : Parameter
  | cookie (parameterData : ParameterData) : Parameter

/-- `openapiv3::Header`, restricted to the fields the engine touches. -/
structure Header where
  format : ParameterSchemaOrContent
  examples : List (String × RefOr Example)

/-- `openapiv3::RequestBody`, restricted to the fields the engine touches. -/
structure RequestBody where
  content : List (String × MediaType)

/-- `openapiv3::Response`, restricted to the fields the engine touches. -/
structure Response where
  headers : List (String × RefOr Header)
  content : List (String × MediaType)
  links : List (String × RefOr Link)

/-- `openapiv3::Operation`, restricted to the fields the engine touches
(`responses` models `responses.responses`; openapiv3 v1.0.4 operations carry
no callbacks field, see reference_walker.rs). -/
structure Operation where
  tags : List String
  operationId : Option String
  parameters : List (RefOr Parameter)
  requestBody : Option (RefOr RequestBody)
  responses : List (String × RefOr Response)

/-- `openapiv3::PathItem`: the eight operation slots plus shared parameters. -/
structure PathItem where
  get : Option Operation := none
  put : Option Operation := none
  post : Option Operation := none
  delete : Option Operation := none
  options : Option Operation := none
  head : Option Operation := none
  patch : Option Operation := none
  trace : Option Operation := none
  parameters : List (RefOr Parameter) := []

/-- `openapiv3::Callback` = `IndexMap<String, PathItem>`. -/
abbrev Callback : Type := List (String × PathItem)

/-- `openapiv3::SecurityScheme`; its body carries no walkable references. -/
structure SecurityScheme where
  payload : Json

/-- `openapiv3::Components`: the nine ordered component maps. -/
structure Components where
  schemas : List (String × SchemaRO) := []
  responses : List (String × RefOr Response) := []
  parameters : List (String × RefOr Parameter) := []
  examples : List (String × RefOr Example) := []
  requestBodies : List (String × RefOr RequestBody) := []
  headers : List (String × RefOr Header) := []
  links : List (String × RefOr Link) := []
  callbacks : List (String × RefOr Callback) := []
  securitySchemes : List (String × RefOr SecurityScheme) := []

/-- `openapiv3::Tag`, restricted to the fields the engine touches. -/
structure Tag where
  name : String
  payload : Json := Json.null

/-- `openapiv3::Info`, restricted to the fields the engine touches. -/
structure Info where
  title : String
  version : String
  description : Option String := none

/-- `openapiv3::OpenAPI`, restricted to the fields the engine touches. -/
structure OpenAPI where
  openapi : String
  info : Info
  servers : List Json := []
  paths : List (String × RefOr PathItem) := []
  components : Option Components := none
  security : Option (List Json) := none
  tags : List Tag := []
  externalDocs : Option Json := none
  extensions : List (String × Json) := []

/-! ## Structural equality

`component_equivalence.rs` compares components by their serde-JSON values;
in the embedding this is plain structural equality on the embedded values. -/

mutual

def Json.beq : Json → Json → Bool
  | .null, .null => true
  | .bool x, .bool y => x == y
  | .num x, .num y => x == y
  | .str x, .str y => x == y
  | .arr xs, .arr ys => Json.beqList xs ys
  | .obj xs, .obj ys => Json.beqFields xs ys
  | _, _ => false

def Json.beqList : List Json → List Json → Bool
  | [], [] => true
  | x :: xs, y :: ys => Json.beq x y && Json.beqList xs ys
  | _, _ => false

def Json.beqFields : List (String × Json) → List (String × Json) → Bool
  | [], [] => true
  | (k, v) :: xs, (k2, v2) :: ys => k == k2 && Json.beq v v2 && Json.beqFields xs ys
  | _, _ => false

end

instance : BEq Json := ⟨Json.beq⟩

mutual

def SchemaRO.beq : SchemaRO → SchemaRO → Bool
  | .reference r, .reference r2 => r == r2
  | .objectT ps ap, .objectT ps2 ap2 => SchemaRO.beqFields ps ps2 && SchemaRO.beqOpt ap ap2
  | .arrayT it, .arrayT it2 => SchemaRO.beqOpt it it2
  | .stringT, .stringT => true
  | .numberT, .numberT => true
  | .integerT, .integerT => true
  | .booleanT, .booleanT => true
  | .oneOf xs, .oneOf ys => SchemaRO.beqList xs ys
  | .allOf xs, .allOf ys => SchemaRO.beqList xs ys
  | .anyOf xs, .anyOf ys => SchemaRO.beqList xs ys
  | .notS x, .notS y => SchemaRO.beq x y
  | .anySchema ps ap it o a an n, .anySchema ps2 ap2 it2 o2 a2 an2 n2 =>
      SchemaRO.beqFields ps ps2 && SchemaRO.beqOpt ap ap2 && SchemaRO.beqOpt it it2 &&
      SchemaRO.beqList o o2 && SchemaRO.beqList a a2 && SchemaRO.beqList an an2 &&
      SchemaRO.beqOpt n n2
  | _, _ => false
termination_by structural x => x

def SchemaRO.beqOpt : Option SchemaRO → Option SchemaRO → Bool
  | none, none => true
  | some x, some y => SchemaRO.beq x y
  | _, _ => false

def SchemaRO.beqList : List SchemaRO → List SchemaRO → Bool
  | [], [] => true
  | x :: xs, y :: ys => SchemaRO.beq x y && SchemaRO.beqList xs ys
  | _, _ => false

def SchemaRO.beqFields : List (String × SchemaRO) → List (String × SchemaRO) → Bool
  | [], [] => true
  | (k, v) :: xs, (k2, v2) :: ys => k == k2 && SchemaRO.beq v v2 && SchemaRO.beqFields xs ys
  | _, _ => false

end

instance : BEq SchemaRO := ⟨SchemaRO.beq⟩

deriving instance BEq for RefOr

deriving instance BEq for Example

deriving instance BEq for Link

deriving instance BEq for MediaType

deriving instance BEq for ParameterSchemaOrContent

deriving instance BEq for ParameterData

deriving instance BEq for Parameter

deriving instance BEq for Header

deriving instance BEq for RequestBody

deriving instance BEq for Response

deriving instance BEq for Operation

deriving instance BEq for PathItem

deriving instance BEq for SecurityScheme

/-! ## Merge-input configuration (`data.rs`) -/

/-- `data.rs::OperationSelection`. -/
structure OperationSelection where
  includeTags : Option (List String) := none
  excludeTags : Option (List String) := none

/-- `data.rs::PathModification`. -/
structure PathModification where
  stripStart : Option String := none
  prepend : Option String := none

/-- `data.rs::DescriptionTitle` (`heading_level : Option<u8>`). -/
structure DescriptionTitle where
  value : String
  headingLevel : Option Nat := none

/-- `data.rs::DescriptionMergeBehaviour`. -/
structure DescriptionMergeBehaviour where
  append : Bool
  title : Option DescriptionTitle := none

/-- `data.rs::DisputePrefix` (field `prefix` renamed to `prefixValue`). -/
structure DisputePrefix where
  prefixValue : String
  alwaysApply : Option Bool := none

/-- `data.rs::DisputeSuffix` (field `suffix` renamed to `suffixValue`). -/
structure DisputeSuffix where
  suffixValue : String
  alwaysApply : Option Bool := none

/-- `data.rs::Dispute`: either a prefix or a suffix configuration. -/
inductive Dispute where
  | byPrefix (p : DisputePrefix) : Dispute
  | bySuffix (s : DisputeSuffix) : Dispute

/-- `data.rs::SingleMergeInput` (`dispute_prefix` is the deprecated field). -/
structure SingleMergeInput where
  oas : OpenAPI
  pathModification : Option PathModification := none
  operationSelection : Option OperationSelection := none
  description : Option DescriptionMergeBehaviour := none
  dispute : Option Dispute := none
  disputePrefix : Option String := none

/-- `data.rs::ErrorType`. -/
inductive ErrorType where
  | noInputs : ErrorType
  | duplicatePaths : ErrorType
  | componentDefinitionConflict : ErrorType
  | operationIdConflict : ErrorType
  deriving DecidableEq

/-- `data.rs::ErrorMergeResult`. -/
structure ErrorMergeResult where
  errorType : ErrorType
  message : String
  deriving DecidableEq

/-! ## Ordered-map operations

The engine stores components and paths in `indexmap::IndexMap<String, T>`,
here an association list. `insert` replaces the value in place when the key
is present (keeping the original key and position) and appends otherwise,
matching indexmap. The reference rewrite table is a
`std::collections::HashMap<String, String>`; the source only uses `get`,
overwriting `insert` and a scan of `keys()`, so the same association-list
operations model it. -/

/-- The ordered maps of the embedding: association lists keyed by strings. -/
abbrev IndexMap (α : Type) : Type := List (String × α)

/-- `IndexMap::get`. -/
def imGet {α : Type} (m : IndexMap α) (k : String) : Option α :=
  match m with
  | [] => none
  | (k2, v) :: rest => if k2 == k then some v else imGet rest k

/-- `IndexMap::contains_key`. -/
def imContains {α : Type} (m : IndexMap α) (k : String) : Bool :=
  (imGet m k).isSome

/-- `IndexMap::insert`: replace in place when present, append when absent. -/
def imInsert {α : Type} (m : IndexMap α) (k : String) (v : α) : IndexMap α :=
  match m with
  | [] => [(k, v)]
  | (k2, v2) :: rest => if k2 == k then (k2, v) :: rest else (k2, v2) :: imInsert rest k v

/-- The reference rewrite table (`HashMap<String, String>` in the source). -/
abbrev RefMap : Type := IndexMap String

/-- Rust `str::starts_with`, modelled on the character lists (kept
kernel-reducible; `String.startsWith` itself is byte-position based). -/
def stringStartsWith (s pre : String) : Bool :=
  List.isPrefixOf pre.data s.data

/-- Rust `&s[n..]` after a checked prefix match: drop the first `n`
characters (kept kernel-reducible). -/
def stringDrop (s : String) (n : Nat) : String :=
  String.mk (s.data.drop n)

/-- Rust `str::trim_end`: remove trailing whitespace (kept
kernel-reducible). -/
def rustTrimEnd (s : String) : String :=
  String.mk (s.data.reverse.dropWhile Char.isWhitespace).reverse

/-! ## Structural equality (`component_equivalence.rs`) -/

/-- `components_equal::<T>`: the source compares the serde-JSON values of the
two components; on embedded values this is structural equality via `BEq`. -/
def componentsEqual {T : Type} [BEq T] (x y : T) : Bool :=
  x == y

/-! ## Dispute resolution (`dispute.rs`) -/

/-- `dispute.rs::get_dispute`: the deprecated `disputePrefix` field wins over
the new `dispute` field and is lowered to a prefix dispute with
`always_apply = None`. -/
def getDispute (input : SingleMergeInput) : Option Dispute :=
  match input.disputePrefix with
  | some p => some (Dispute.byPrefix { prefixValue := p, alwaysApply := none })
  | none => input.dispute

/-- `dispute.rs::DisputeStatus`. -/
inductive DisputeStatus where
  | disputed : DisputeStatus
  | undisputed : DisputeStatus
  deriving DecidableEq

/-- `dispute.rs::apply_dispute`. -/
def applyDispute (dispute : Option Dispute) (input : String) (status : DisputeStatus) : String :=
  match dispute with
  | none => input
  | some d =>
    let shouldApply :=
      match status with
      | .disputed => true
      | .undisputed =>
        match d with
        | .byPrefix p => p.alwaysApply.getD false
        | .bySuffix s => s.alwaysApply.getD false
    if !shouldApply then input
    else
      match d with
      | .byPrefix p => p.prefixValue ++ input
      | .bySuffix s => input ++ s.suffixValue

/-! ## Operation selection (`operation_selection.rs`) -/

/-- `operation_selection.rs::operation_contains_any_tag`. -/
def operationContainsAnyTag (operation : Operation) (tags : List String) : Bool :=
  operation.tags.any (fun tag => tags.contains tag)

/-- One slot of `drop_operations_that_have_tags`: clear the operation when it
carries an excluded tag. -/
def dropSlotIfTagged (excludedTags : List String) (slot : Option Operation) : Option Operation :=
  match slot with
  | some op => if operationContainsAnyTag op excludedTags then none else some op
  | none => none

/-- One slot of `include_operations_that_have_tags`: clear the operation when
it carries none of the include tags. -/
def keepSlotIfTagged (includeTags : List String) (slot : Option Operation) : Option Operation :=
  match slot with
  | some op => if !operationContainsAnyTag op includeTags then none else some op
  | none => none

/-- The per-path-item body of `drop_operations_that_have_tags`: the eight
operation slots are filtered; `ReferenceOr::Reference` items are kept as-is. -/
def dropOperationsFromItem (excludedTags : List String) (pi : RefOr PathItem) : RefOr PathItem :=
  match pi with
  | .item item => .item { item with
      get := dropSlotIfTagged excludedTags item.get
      put := dropSlotIfTagged excludedTags item.put
      post := dropSlotIfTagged excludedTags item.post
      delete := dropSlotIfTagged excludedTags item.delete
      options := dropSlotIfTagged excludedTags item.options
      head := dropSlotIfTagged excludedTags item.head
      patch := dropSlotIfTagged excludedTags item.patch
      trace := dropSlotIfTagged excludedTags item.trace }
  | .reference r => .reference r

/-- The per-path-item body of `include_operations_that_have_tags`. -/
def includeOperationsInItem (includeTags : List String) (pi : RefOr PathItem) : RefOr PathItem :=
  match pi with
  | .item item => .item { item with
      get := keepSlotIfTagged includeTags item.get
      put := keepSlotIfTagged includeTags item.put
      post := keepSlotIfTagged includeTags item.post
      delete := keepSlotIfTagged includeTags item.delete
      options := keepSlotIfTagged includeTags item.options
      head := keepSlotIfTagged includeTags item.head
      patch := keepSlotIfTagged includeTags item.patch
      trace := keepSlotIfTagged includeTags item.trace }
  | .reference r => .reference r

/-- `operation_selection.rs::drop_operations_that_have_tags`. -/
def dropOperationsThatHaveTags (oas : OpenAPI) (excludedTags : List String) : OpenAPI :=
  if excludedTags.isEmpty then oas
  else { oas with paths := oas.paths.map (fun kv => (kv.1, dropOperationsFromItem excludedTags kv.2)) }

/-- `operation_selection.rs::include_operations_that_have_tags`. -/
def includeOperationsThatHaveTags (oas : OpenAPI) (includeTags : List String) : OpenAPI :=
  if includeTags.isEmpty then oas
  else { oas with paths := oas.paths.map (fun kv => (kv.1, includeOperationsInItem includeTags kv.2)) }

/-- `operation_selection.rs::run_operation_selection`: include filtering runs
first, exclude filtering second. -/
def runOperationSelection (oas : OpenAPI) (operationSelection : Option OperationSelection) : OpenAPI :=
  match operationSelection with
  | none => oas
  | some selection =>
    let includeTags := selection.includeTags.getD []
    let excludeTags := selection.excludeTags.getD []
    let oas1 := if !includeTags.isEmpty then includeOperationsThatHaveTags oas includeTags else oas
    if !excludeTags.isEmpty then dropOperationsThatHaveTags oas1 excludeTags else oas1

/-! ## Reference walking (`reference_walker.rs`)

Each function rewrites every `$ref` string at the positions the source
visits, via a caller-supplied `modify` function. -/

mutual

/-- `walk_schema_references` / `walk_boxed_schema_references` /
`walk_schema_kind_references` / `walk_type_references` /
`walk_any_schema_references`, on the flattened schema type. -/
def walkSchemaReferences (modify : String → String) : SchemaRO → SchemaRO
  | .reference r => .reference (modify r)
  | .objectT props ap =>
      .objectT (walkSchemaProps modify props) (walkSchemaOpt modify ap)
  | .arrayT it => .arrayT (walkSchemaOpt modify it)
  | .stringT => .stringT
  | .numberT => .numberT
  | .integerT => .integerT
  | .booleanT => .booleanT
  | .oneOf xs => .oneOf (walkSchemaList modify xs)
  | .allOf xs => .allOf (walkSchemaList modify xs)
  | .anyOf xs => .anyOf (walkSchemaList modify xs)
  | .notS x => .notS (walkSchemaReferences modify x)
  | .anySchema ps ap it o a an n =>
      .anySchema (walkSchemaProps modify ps) (walkSchemaOpt modify ap)
        (walkSchemaOpt modify it) (walkSchemaList modify o) (walkSchemaList modify a)
        (walkSchemaList modify an) (walkSchemaOpt modify n)
termination_by structural x => x

def walkSchemaOpt (modify : String → String) : Option SchemaRO → Option SchemaRO
  | none => none
  | some s => some (walkSchemaReferences modify s)
termination_by structural x => x

def walkSchemaList (modify : String → String) : List SchemaRO → List SchemaRO
  | [] => []
  | s :: rest => walkSchemaReferences modify s :: walkSchemaList modify rest
termination_by structural x => x

def walkSchemaProps (modify : String → String) :
    List (String × SchemaRO) → List (String × SchemaRO)
  | [] => []
  | (k, s) :: rest => (k, walkSchemaReferences modify s) :: walkSchemaProps modify rest
termination_by structural x => x

end

/-- `walk_example_references`: only the `Reference` case carries a ref. -/
def walkExampleReferences (modify : String → String) (ex : RefOr Example) : RefOr Example :=
  match ex with
  | .reference r => .reference (modify r)
  | .item e => .item e

/-- `walk_link_references`: only the `Reference` case carries a ref. -/
def walkLinkReferences (modify : String → String) (link : RefOr Link) : RefOr Link :=
  match link with
  | .reference r => .reference (modify r)
  | .item l => .item l

/-- `walk_media_type_references`. -/
def walkMediaTypeReferences (modify : String → String) (mediaType : MediaType) : MediaType :=
  { schema := walkSchemaOpt modify mediaType.schema
    examples := mediaType.examples.map (fun kv => (kv.1, walkExampleReferences modify kv.2)) }

/-- `walk_parameter_schema_or_content_references`. -/
def walkParameterSchemaOrContentReferences (modify : String → String)
    (format : ParameterSchemaOrContent) : ParameterSchemaOrContent :=
  match format with
  | .schema s => .schema (walkSchemaReferences modify s)
  | .content c => .content (c.map (fun kv => (kv.1, walkMediaTypeReferences modify kv.2)))

/-- `get_parameter_data_mut` composed with the mutation of
`walk_parameter_references`: apply a transformation to the shared
`parameter_data` payload of any of the four parameter variants. -/
def mapParameterData (f : ParameterData → ParameterData) (param : Parameter) : Parameter :=
  match param with
  | .query parameterData => .query (f parameterData)
  | .header parameterData => .header (f parameterData)
  | .path parameterData => .path (f parameterData)
  | .cookie parameterData => .cookie (f parameterData)

/-- `walk_parameter_references`. -/
def walkParameterReferences (modify : String → String) (parameter : RefOr Parameter) :
    RefOr Parameter :=
  match parameter with
  | .reference r => .reference (modify r)
  | .item param => .item (mapParameterData (fun paramData =>
      { paramData with
        format := walkParameterSchemaOrContentReferences modify paramData.format
        examples := paramData.examples.map (fun kv => (kv.1, walkExampleReferences modify kv.2)) }) param)

/-- `walk_request_body_references`. -/
def walkRequestBodyReferences (modify : String → String) (requestBody : RefOr RequestBody) :
    RefOr RequestBody :=
  match requestBody with
  | .reference r => .reference (modify r)
  | .item body => .item { content := body.content.map (fun kv => (kv.1, walkMediaTypeReferences modify kv.2)) }

/-- `walk_header_references`. -/
def walkHeaderReferences (modify : String → String) (header : RefOr Header) : RefOr Header :=
  match header with
  | .reference r => .reference (modify r)
  | .item headerItem => .item
      { format := walkParameterSchemaOrContentReferences modify headerItem.format
        examples := headerItem.examples.map (fun kv => (kv.1, walkExampleReferences modify kv.2)) }

/-- `walk_response_references`. -/
def walkResponseReferences (modify : String → String) (response : RefOr Response) :
    RefOr Response :=
  match response with
  | .reference r => .reference (modify r)
  | .item resp => .item
      { headers := resp.headers.map (fun kv => (kv.1, walkHeaderReferences modify kv.2))
        content := resp.content.map (fun kv => (kv.1, walkMediaTypeReferences modify kv.2))
        links := resp.links.map (fun kv => (kv.1, walkLinkReferences modify kv.2)) }

/-- `walk_operation_references`. -/
def walkOperationReferences (modify : String → String) (operation : Operation) : Operation :=
  { operation with
    parameters := operation.parameters.map (walkParameterReferences modify)
    requestBody := operation.requestBody.map (walkRequestBodyReferences modify)
    responses := operation.responses.map (fun kv => (kv.1, walkResponseReferences modify kv.2)) }

/-- `walk_path_item_inner_references` (a `PathItem` not wrapped in
`ReferenceOr`, as found inside callbacks). -/
def walkPathItemInnerReferences (modify : String → String) (item : PathItem) : PathItem :=
  { item with
    get := item.get.map (walkOperationReferences modify)
    put := item.put.map (walkOperationReferences modify)
    post := item.post.map (walkOperationReferences modify)
    delete := item.delete.map (walkOperationReferences modify)
    options := item.options.map (walkOperationReferences modify)
    head := item.head.map (walkOperationReferences modify)
    patch := item.patch.map (walkOperationReferences modify)
    trace := item.trace.map (walkOperationReferences modify)
    parameters := item.parameters.map (walkParameterReferences modify) }

/-- `walk_path_item_references`. -/
def walkPathItemReferences (modify : String → String) (pathItem : RefOr PathItem) :
    RefOr PathItem :=
  match pathItem with
  | .reference r => .reference (modify r)
  | .item item => .item (walkPathItemInnerReferences modify item)

/-- `walk_callback_references`. -/
def walkCallbackReferences (modify : String → String) (callback : RefOr Callback) :
    RefOr Callback :=
  match callback with
  | .reference r => .reference (modify r)
  | .item callbackItem => .item (callbackItem.map (fun kv => (kv.1, walkPathItemInnerReferences modify kv.2)))

/-- `walk_component_references`. -/
def walkComponentReferences (modify : String → String) (components : Components) : Components :=
  { components with
    schemas := components.schemas.map (fun kv => (kv.1, walkSchemaReferences modify kv.2))
    responses := components.responses.map (fun kv => (kv.1, walkResponseReferences modify kv.2))
    parameters := components.parameters.map (fun kv => (kv.1, walkParameterReferences modify kv.2))
    examples := components.examples.map (fun kv => (kv.1, walkExampleReferences modify kv.2))
    requestBodies := components.requestBodies.map (fun kv => (kv.1, walkRequestBodyReferences modify kv.2))
    headers := components.headers.map (fun kv => (kv.1, walkHeaderReferences modify kv.2))
    links := components.links.map (fun kv => (kv.1, walkLinkReferences modify kv.2))
    callbacks := components.callbacks.map (fun kv => (kv.1, walkCallbackReferences modify kv.2)) }

/-- `reference_walker.rs::walk_all_references`: rewrite every reference in the
document's paths and components. -/
def walkAllReferences (oas : OpenAPI) (modify : String → String) : OpenAPI :=
  { oas with
    paths := oas.paths.map (fun kv => (kv.1, walkPathItemReferences modify kv.2))
    components := oas.components.map (walkComponentReferences modify) }

/-! ## Paths and components merging (`paths_components.rs`) -/

/-- `apply_path_modification`: strip `strip_start` when the path starts with
it, then prepend `prepend`. -/
def applyPathModification (path : String) (pathModification : Option PathModification) : String :=
  match pathModification with
  | none => path
  | some pm =>
    let result := path
    let result :=
      match pm.stripStart with
      | some stripStart =>
        if stringStartsWith result stripStart then stringDrop result stripStart.length else result
      | none => result
    match pm.prepend with
    | some prepend => prepend ++ result
    | none => result

/-- The retention predicate of `drop_path_items_with_no_operations`: an inline
path item is kept when any of its eight operation slots is populated;
`Reference` path items are always kept. -/
def pathItemHasOperations (pathItem : RefOr PathItem) : Bool :=
  match pathItem with
  | .item item =>
      item.get.isSome || item.put.isSome || item.post.isSome || item.delete.isSome ||
      item.options.isSome || item.head.isSome || item.patch.isSome || item.trace.isSome
  | .reference _ => true

/-- `drop_path_items_with_no_operations`. -/
def dropPathItemsWithNoOperations (oas : OpenAPI) : OpenAPI :=
  { oas with paths := oas.paths.filter (fun kv => pathItemHasOperations kv.2) }

/-- The `for anti_conflict in 1..1000` retry loop of
`find_unique_operation_id`, with `antiConflict` counting up from 1 and
`remaining` the number of iterations still to run (initially 999). -/
def tryNumericOperationIds (seenOperationIds : List String) (operationId : String) :
    Nat → Nat → Option String
  | _, 0 => none
  | antiConflict, remaining + 1 =>
    let tryOpId := operationId ++ toString antiConflict
    if !seenOperationIds.contains tryOpId then some tryOpId
    else tryNumericOperationIds seenOperationIds operationId (antiConflict + 1) remaining

/-- `find_unique_operation_id`: keep an unseen id; otherwise try the
dispute-applied id; otherwise the numeric suffixes 1..999; otherwise fail
with `OperationIdConflict`. -/
def findUniqueOperationId (operationId : String) (seenOperationIds : List String)
    (dispute : Option Dispute) : Except ErrorMergeResult String :=
  if !seenOperationIds.contains operationId then .ok operationId
  else
    let fromDispute :=
      match dispute with
      | some d =>
        let disputeOpId := applyDispute (some d) operationId .disputed
        if !seenOperationIds.contains disputeOpId then some disputeOpId else none
      | none => none
    match fromDispute with
    | some newId => .ok newId
    | none =>
      match tryNumericOperationIds seenOperationIds operationId 1 999 with
      | some newId => .ok newId
      | none => .error
          { errorType := .operationIdConflict
            message := "Could not resolve a conflict for the operationId '" ++ operationId ++ "'" }

/-- One `if let Some(op) = item.<slot>.as_mut()` block of
`ensure_unique_operation_ids`: replace the operation's id by a unique one and
record it as seen. -/
def ensureSlotUniqueOperationId (slot : Option Operation) (seenOperationIds : List String)
    (dispute : Option Dispute) : Except ErrorMergeResult (Option Operation × List String) :=
  match slot with
  | none => .ok (none, seenOperationIds)
  | some op =>
    match op.operationId with
    | none => .ok (some op, seenOperationIds)
    | some operationId => do
      let uniqueId ← findUniqueOperationId operationId seenOperationIds dispute
      .ok (some { op with operationId := some uniqueId }, uniqueId :: seenOperationIds)

/-- `ensure_unique_operation_ids`: the eight slots are processed in the
source's order (get, put, post, delete, patch, head, trace, options);
`Reference` path items have no operation ids. -/
def ensureUniqueOperationIds (pathItem : RefOr PathItem) (seenOperationIds : List String)
    (dispute : Option Dispute) : Except ErrorMergeResult (RefOr PathItem × List String) :=
  match pathItem with
  | .reference r => .ok (.reference r, seenOperationIds)
  | .item item => do
    let (g, seen1) ← ensureSlotUniqueOperationId item.get seenOperationIds dispute
    let (pu, seen2) ← ensureSlotUniqueOperationId item.put seen1 dispute
    let (po, seen3) ← ensureSlotUniqueOperationId item.post seen2 dispute
    let (d, seen4) ← ensureSlotUniqueOperationId item.delete seen3 dispute
    let (pa, seen5) ← ensureSlotUniqueOperationId item.patch seen4 dispute
    let (h, seen6) ← ensureSlotUniqueOperationId item.head seen5 dispute
    let (t, seen7) ← ensureSlotUniqueOperationId item.trace seen6 dispute
    let (o, seen8) ← ensureSlotUniqueOperationId item.options seen7 dispute
    .ok (.item { item with
      get := g
      put := pu
      post := po
      delete := d
      patch := pa
      head := h
      trace := t
      options := o }, seen8)

/-- `results.get(&k).is_none() || components_equal(&results[&k], component)`:
the slot at `k` is free, or holds a structurally equal value. -/
def slotFreeOrEqual {T : Type} [BEq T] (results : IndexMap T) (k : String) (component : T) :
    Bool :=
  match imGet results k with
  | none => true
  | some existing => componentsEqual existing component

/-- The `for anti_conflict in 1..1000` loop of the component conflict path:
find the first `key ++ toString i` (i = 1..999) absent from the accumulator.
`remaining` is the number of iterations still to run (initially 999). -/
def tryNumericComponentKeys {T : Type} (results : IndexMap T) (key : String) :
    Nat → Nat → Option String
  | _, 0 => none
  | antiConflict, remaining + 1 =>
    let tryKey := key ++ toString antiConflict
    if (imGet results tryKey).isNone then some tryKey
    else tryNumericComponentKeys results key (antiConflict + 1) remaining

/-- The loop body of `process_components_with_prefix`, for one
`(key, component)` entry. -/
def processSingleComponent {T : Type} [BEq T]
    (results : IndexMap T) (referenceModification : RefMap)
    (key : String) (component : T)
    (dispute : Option Dispute) (prefixName : String) :
    Except ErrorMergeResult (IndexMap T × RefMap) :=
  let modifiedKey := applyDispute dispute key .undisputed
  let referenceModification :=
    if modifiedKey != key then
      imInsert referenceModification
        ("#/components/" ++ prefixName ++ "/" ++ key)
        ("#/components/" ++ prefixName ++ "/" ++ modifiedKey)
    else referenceModification
  if slotFreeOrEqual results modifiedKey component then
    .ok (imInsert results modifiedKey component, referenceModification)
  else
    let placedByDispute :=
      match dispute with
      | some d =>
        let preferredKey := applyDispute (some d) key .disputed
        if slotFreeOrEqual results preferredKey component then
          some (imInsert results preferredKey component,
            imInsert referenceModification
              ("#/components/" ++ prefixName ++ "/" ++ key)
              ("#/components/" ++ prefixName ++ "/" ++ preferredKey))
        else none
      | none => none
    match placedByDispute with
    | some placed => .ok placed
    | none =>
      match tryNumericComponentKeys results key 1 999 with
      | some tryKey =>
        .ok (imInsert results tryKey component,
          imInsert referenceModification
            ("#/components/" ++ prefixName ++ "/" ++ key)
            ("#/components/" ++ prefixName ++ "/" ++ tryKey))
      | none => .error
          { errorType := .componentDefinitionConflict
            message := "The \"" ++ key ++ "\" definition had a duplicate in a previous input and could not be deduplicated." }

/-- `process_components_with_prefix`: fold the input's component map, in
insertion order, into the accumulator. -/
def processComponentsWithPrefix {T : Type} [BEq T]
    (results : IndexMap T) (components : IndexMap T)
    (dispute : Option Dispute) (referenceModification : RefMap)
    (prefixName : String) : Except ErrorMergeResult (IndexMap T × RefMap) :=
  match components with
  | [] => .ok (results, referenceModification)
  | (key, component) :: rest => do
    let (results2, rm2) ←
      processSingleComponent results referenceModification key component dispute prefixName
    processComponentsWithPrefix results2 rest dispute rm2 prefixName

/-- `process_schemas`. -/
def processSchemas (results : IndexMap SchemaRO) (schemas : IndexMap SchemaRO)
    (dispute : Option Dispute) (referenceModification : RefMap) :
    Except ErrorMergeResult (IndexMap SchemaRO × RefMap) :=
  processComponentsWithPrefix results schemas dispute referenceModification "schemas"

/-- `process_responses`. -/
def processResponses (results : IndexMap (RefOr Response)) (responses : IndexMap (RefOr Response))
    (dispute : Option Dispute) (referenceModification : RefMap) :
    Except ErrorMergeResult (IndexMap (RefOr Response) × RefMap) :=
  processComponentsWithPrefix results responses dispute referenceModification "responses"

/-- `process_parameters`. -/
def processParameters (results : IndexMap (RefOr Parameter))
    (parameters : IndexMap (RefOr Parameter))
    (dispute : Option Dispute) (referenceModification : RefMap) :
    Except ErrorMergeResult (IndexMap (RefOr Parameter) × RefMap) :=
  processComponentsWithPrefix results parameters dispute referenceModification "parameters"

/-- The accumulator state of `merge_paths_and_components` (its local
variables `seen_operation_ids`, `result_paths`, `result_components`). -/
structure MergeState where
  seenOperationIds : List String := []
  resultPaths : IndexMap (RefOr PathItem) := []
  resultComponents : Components := {}

/-- The per-path loop body of `merge_paths_and_components` (the
`for (original_path, path_item) in oas.paths.iter()` body): path
modification, the rewrite-table entry, the duplicate check, operation-id
uniquification and insertion. -/
def insertPathItem (inputIndex : Nat) (pathModification : Option PathModification)
    (dispute : Option Dispute)
    (seenOperationIds : List String) (resultPaths : IndexMap (RefOr PathItem))
    (referenceModification : RefMap)
    (originalPath : String) (pathItem : RefOr PathItem) :
    Except ErrorMergeResult (List String × IndexMap (RefOr PathItem) × RefMap) :=
  let newPath := applyPathModification originalPath pathModification
  let referenceModification :=
    if originalPath != newPath then
      imInsert referenceModification ("#/paths/" ++ originalPath) ("#/paths/" ++ newPath)
    else referenceModification
  if imContains resultPaths newPath then
    .error
      { errorType := .duplicatePaths
        message := "Input " ++ toString inputIndex ++ ": The path '" ++ originalPath ++
          "' maps to '" ++ newPath ++ "' and this has already been added by another input file" }
  else do
    let (copyPathItem, seen2) ← ensureUniqueOperationIds pathItem seenOperationIds dispute
    .ok (seen2, imInsert resultPaths newPath copyPathItem, referenceModification)

/-- The paths loop of `merge_paths_and_components` over one input. -/
def processPaths (inputIndex : Nat) (pathModification : Option PathModification)
    (dispute : Option Dispute)
    (seenOperationIds : List String) (resultPaths : IndexMap (RefOr PathItem))
    (referenceModification : RefMap) :
    List (String × RefOr PathItem) →
    Except ErrorMergeResult (List String × IndexMap (RefOr PathItem) × RefMap)
  | [] => .ok (seenOperationIds, resultPaths, referenceModification)
  | (originalPath, pathItem) :: rest => do
    let (seen2, rp2, rm2) ← insertPathItem inputIndex pathModification dispute
      seenOperationIds resultPaths referenceModification originalPath pathItem
    processPaths inputIndex pathModification dispute seen2 rp2 rm2 rest

/-- One guarded component-kind block of `merge_paths_and_components`: the
source only calls `process_components_with_prefix` (or its `process_schemas`
/ `process_responses` / `process_parameters` wrappers) when the input's map
for that kind is non-empty. -/
def processKindGuarded {T : Type} [BEq T] (results : IndexMap T) (components : IndexMap T)
    (dispute : Option Dispute) (referenceModification : RefMap) (prefixName : String) :
    Except ErrorMergeResult (IndexMap T × RefMap) :=
  if components.isEmpty then .ok (results, referenceModification)
  else processComponentsWithPrefix results components dispute referenceModification prefixName

/-- The component-processing block of `merge_paths_and_components` for one
input (the eight guarded `process_*` calls plus the `securitySchemes`
first-non-empty rule). -/
def processInputComponents (components : Components) (resultComponents : Components)
    (dispute : Option Dispute) (referenceModification : RefMap) :
    Except ErrorMergeResult (Components × RefMap) := do
  let (schemas, rm1) ←
    processKindGuarded resultComponents.schemas components.schemas dispute
      referenceModification "schemas"
  let (responses, rm2) ←
    processKindGuarded resultComponents.responses components.responses dispute rm1 "responses"
  let (parameters, rm3) ←
    processKindGuarded resultComponents.parameters components.parameters dispute rm2 "parameters"
  let (examples, rm4) ←
    processKindGuarded resultComponents.examples components.examples dispute rm3 "examples"
  let (requestBodies, rm5) ←
    processKindGuarded resultComponents.requestBodies components.requestBodies dispute rm4
      "requestBodies"
  let (headers, rm6) ←
    processKindGuarded resultComponents.headers components.headers dispute rm5 "headers"
  let (links, rm7) ←
    processKindGuarded resultComponents.links components.links dispute rm6 "links"
  let (callbacks, rm8) ←
    processKindGuarded resultComponents.callbacks components.callbacks dispute rm7 "callbacks"
  let securitySchemes :=
    if resultComponents.securitySchemes.isEmpty && !components.securitySchemes.isEmpty then
      components.securitySchemes
    else resultComponents.securitySchemes
  .ok ({ schemas, responses, parameters, examples, requestBodies, headers, links, callbacks, securitySchemes }, rm8)

/-- The closure passed to `walk_all_references` at the end of each input
iteration: exact lookup in the rewrite table, then a search for table keys
that extend `refPath ++ "/"`. With more than one matching key the source
panics; the panic branch is modelled as returning `refPath` unchanged — the
walked document is discarded by the caller either way. -/
def referenceLookup (referenceModification : RefMap) (refPath : String) : String :=
  match imGet referenceModification refPath with
  | some newRef => newRef
  | none =>
    let matchingKeys := referenceModification.filter (fun kv => stringStartsWith kv.1 (refPath ++ "/"))
    match matchingKeys with
    | [] => refPath
    | [kv] => kv.2
    | _ => refPath

/-- The `if let Some(components) = &oas.components` guard of
`merge_paths_and_components`: a document without a components block
contributes nothing. -/
def processComponentsIfPresent (componentsOpt : Option Components)
    (resultComponents : Components) (dispute : Option Dispute)
    (referenceModification : RefMap) : Except ErrorMergeResult (Components × RefMap) :=
  match componentsOpt with
  | some components =>
    processInputComponents components resultComponents dispute referenceModification
  | none => .ok (resultComponents, referenceModification)

/-- One iteration of the `for (input_index, input) in inputs.iter().enumerate()`
loop of `merge_paths_and_components`. The source deep-clones the input
document by a serde round trip (which cannot fail on an in-memory document),
filters it, merges components then paths into the accumulator, and finally
rewrites the references inside the scratch copy `oas` — which is then
dropped, so the rewritten document never reaches the accumulator. -/
def processInput (inputIndex : Nat) (input : SingleMergeInput) (st : MergeState) :
    Except ErrorMergeResult MergeState := do
  let dispute := getDispute input
  let oas := input.oas
  let oas := runOperationSelection oas input.operationSelection
  let oas := dropPathItemsWithNoOperations oas
  let referenceModification : RefMap := []
  let (resultComponents, referenceModification) ←
    processComponentsIfPresent oas.components st.resultComponents dispute referenceModification
  let (seenOperationIds, resultPaths, referenceModification) ←
    processPaths inputIndex input.pathModification dispute
      st.seenOperationIds st.resultPaths referenceModification oas.paths
  let _walked := walkAllReferences oas (referenceLookup referenceModification)
  .ok { seenOperationIds, resultPaths, resultComponents }

/-- The input loop of `merge_paths_and_components`. -/
def mergeInputsLoop (inputIndex : Nat) (inputs : List SingleMergeInput) (st : MergeState) :
    Except ErrorMergeResult MergeState :=
  match inputs with
  | [] => .ok st
  | input :: rest => do
    let st2 ← processInput inputIndex input st
    mergeInputsLoop (inputIndex + 1) rest st2

/-- `paths_components.rs::merge_paths_and_components`. -/
def mergePathsAndComponents (inputs : List SingleMergeInput) :
    Except ErrorMergeResult (IndexMap (RefOr PathItem) × Components) := do
  let st ← mergeInputsLoop 0 inputs {}
  .ok (st.resultPaths, st.resultComponents)

/-! ## Info merging (`info.rs`) -/

/-- `info.rs::get_info_description_with_heading`. Note the `?` on
`desc_config.title.as_ref()`: when the input has a description configuration
whose `title` is absent, the whole function returns `None` and the
description is dropped (see theorem C4 below). -/
def getInfoDescriptionWithHeading (input : SingleMergeInput) : Option String :=
  match input.oas.info.description with
  | none => none
  | some description =>
    let trimmedDescription := rustTrimEnd description
    match input.description with
    | none => some trimmedDescription
    | some descConfig =>
      match descConfig.title with
      | none => none
      | some title =>
        let headingLevel := title.headingLevel.getD 1
        let heading := String.mk (List.replicate headingLevel '#')
        some (heading ++ " " ++ title.value ++ "\n\n" ++ trimmedDescription)

/-- `info.rs::merge_infos`: start from the first input's info; collect the
headed descriptions of the inputs whose `description.append` is true; when
any were collected, their `"\n\n"`-join replaces the description. -/
def mergeInfos (inputs : List SingleMergeInput) : Info :=
  match inputs with
  | [] => { title := "Merged API", version := "1.0.0", description := none }
  | first :: _ =>
    let finalInfo := first.oas.info
    let appendedDescriptions := inputs.filterMap (fun input =>
      match input.description with
      | some descConfig =>
        if descConfig.append then getInfoDescriptionWithHeading input else none
      | none => none)
    if !appendedDescriptions.isEmpty then
      { finalInfo with description := some (String.intercalate "\n\n" appendedDescriptions) }
    else finalInfo

/-! ## Tag merging (`tags.rs`) -/

/-- The inner `for tag in &input.oas.tags` loop of `merge_tags`: skip tags
excluded by this input's `excludeTags` and tags already seen by name. -/
def mergeTagsInput (excludeTags : List String) (tags : List Tag)
    (seenTags : List String) (result : List Tag) : List String × List Tag :=
  match tags with
  | [] => (seenTags, result)
  | tag :: rest =>
    if !excludeTags.contains tag.name then
      if !seenTags.contains tag.name then
        mergeTagsInput excludeTags rest (tag.name :: seenTags) (result ++ [tag])
      else mergeTagsInput excludeTags rest seenTags result
    else mergeTagsInput excludeTags rest seenTags result

/-- The outer loop of `merge_tags` over the inputs. -/
def mergeTagsLoop (inputs : List SingleMergeInput)
    (seenTags : List String) (result : List Tag) : List Tag :=
  match inputs with
  | [] => result
  | input :: rest =>
    let excludeTags := (input.operationSelection.bind (fun os => os.excludeTags)).getD []
    let (seenTags2, result2) := mergeTagsInput excludeTags input.oas.tags seenTags result
    mergeTagsLoop rest seenTags2 result2

/-- `tags.rs::merge_tags`. -/
def mergeTags (inputs : List SingleMergeInput) : Option (List Tag) :=
  let result := mergeTagsLoop inputs [] []
  if result.isEmpty then none else some result

/-! ## Extension merging (`extensions.rs`) -/

/-- `extensions.rs::extract_extensions`: serialize the document and keep the
top-level keys starting with `x-` — on the embedded document these are
exactly the `x-`-prefixed entries of the `extensions` field. -/
def extractExtensions (oas : OpenAPI) : List (String × Json) :=
  oas.extensions.filter (fun kv => stringStartsWith kv.1 "x-")

/-- The union loop of `merge_extensions`: for each input in order, add the
input's extension entries whose keys are not yet present. -/
def mergeExtensionsUnion (extensions : List (String × Json))
    (inputs : List SingleMergeInput) : List (String × Json) :=
  match inputs with
  | [] => extensions
  | input :: rest =>
    let extensions2 := (extractExtensions input.oas).foldl
      (fun acc kv => if (imGet acc kv.1).isSome then acc else acc ++ [kv]) extensions
    mergeExtensionsUnion extensions2 rest

/-- `extensions.rs::merge_extensions`: the source computes the merged
extension map and then never applies it to the output — its own comment says
"For now, this is a placeholder" — so the output document is returned
unchanged (see theorem C2 below). -/
def mergeExtensions (output : OpenAPI) (inputs : List SingleMergeInput) : OpenAPI :=
  let _extensions := mergeExtensionsUnion (extractExtensions output) inputs
  output

/-! ## The merge orchestrator (`mod.rs::merge`) -/

/-- `mod.rs::merge`: validate non-emptiness, choose the version, merge paths
and components, then the metadata, assemble the output and run the
(no-op) extension merger. -/
def merge (inputs : List SingleMergeInput) (openapiVersion : Option String) :
    Except ErrorMergeResult OpenAPI :=
  match inputs with
  | [] => .error
      { errorType := .noInputs
        message := "You must provide at least one OAS file as an input." }
  | first :: _ => do
    let version :=
      match openapiVersion with
      | some v => v
      | none => first.oas.openapi
    let (paths, components) ← mergePathsAndComponents inputs
    let info := mergeInfos inputs
    let tags := (mergeTags inputs).getD []
    let servers :=
      ((inputs.find? (fun input => !input.oas.servers.isEmpty)).map
        (fun input => input.oas.servers)).getD []
    let externalDocs := inputs.findSome? (fun input => input.oas.externalDocs)
    let security := inputs.findSome? (fun input => input.oas.security)
    let output : OpenAPI :=
      { openapi := version
        info := info
        servers := servers
        paths := paths
        components := some components
        security := security
        tags := tags
        externalDocs := externalDocs
        extensions := [] }
    .ok (mergeExtensions output inputs)

/-! ## Reference positions and resolution

`documentReferences` collects the reference strings at exactly the positions
`walk_all_references` visits; `referenceResolvesIn` is the resolution notion
of spec §3.4: `#/components/<kind>/<name>` resolves when the output's
`<kind>` map holds `<name>`, `#/paths/<path>` when the paths map holds
`<path>`. -/

mutual

def schemaReferences : SchemaRO → List String
  | .reference r => [r]
  | .objectT props ap => schemaPropsReferences props ++ schemaOptReferences ap
  | .arrayT it => schemaOptReferences it
  | .stringT => []
  | .numberT => []
  | .integerT => []
  | .booleanT => []
  | .oneOf xs => schemaListReferences xs
  | .allOf xs => schemaListReferences xs
  | .anyOf xs => schemaListReferences xs
  | .notS x => schemaReferences x
  | .anySchema ps ap it o a an n =>
      schemaPropsReferences ps ++ schemaOptReferences ap ++ schemaOptReferences it ++
      schemaListReferences o ++ schemaListReferences a ++ schemaListReferences an ++
      schemaOptReferences n
termination_by structural x => x

def schemaOptReferences : Option SchemaRO → List String
  | none => []
  | some s => schemaReferences s
termination_by structural x => x

def schemaListReferences : List SchemaRO → List String
  | [] => []
  | s :: rest => schemaReferences s ++ schemaListReferences rest
termination_by structural x => x

def schemaPropsReferences : List (String × SchemaRO) → List String
  | [] => []
  | (_, s) :: rest => schemaReferences s ++ schemaPropsReferences rest
termination_by structural x => x

end

def exampleReferences (ex : RefOr Example) : List String :=
  match ex with
  | .reference r => [r]
  | .item _ => []

def linkReferences (link : RefOr Link) : List String :=
  match link with
  | .reference r => [r]
  | .item _ => []

def mediaTypeReferences (mediaType : MediaType) : List String :=
  schemaOptReferences mediaType.schema ++
  (mediaType.examples.map (fun kv => exampleReferences kv.2)).flatten

def parameterSchemaOrContentReferences (format : ParameterSchemaOrContent) : List String :=
  match format with
  | .schema s => schemaReferences s
  | .content c => (c.map (fun kv => mediaTypeReferences kv.2)).flatten

def parameterReferences (parameter : RefOr Parameter) : List String :=
  match parameter with
  | .reference r => [r]
  | .item param =>
    let paramData :=
      match param with
      | .query parameterData => parameterData
      | .header parameterData => parameterData
      | .path parameterData => parameterData
      | .cookie parameterData => parameterData
    parameterSchemaOrContentReferences paramData.format ++
    (paramData.examples.map (fun kv => exampleReferences kv.2)).flatten

def requestBodyReferences (requestBody : RefOr RequestBody) : List String :=
  match requestBody with
  | .reference r => [r]
  | .item body => (body.content.map (fun kv => mediaTypeReferences kv.2)).flatten

def headerReferences (header : RefOr Header) : List String :=
  match header with
  | .reference r => [r]
  | .item headerItem =>
    parameterSchemaOrContentReferences headerItem.format ++
    (headerItem.examples.map (fun kv => exampleReferences kv.2)).flatten

def responseReferences (response : RefOr Response) : List String :=
  match response with
  | .reference r => [r]
  | .item resp =>
    (resp.headers.map (fun kv => headerReferences kv.2)).flatten ++
    (resp.content.map (fun kv => mediaTypeReferences kv.2)).flatten ++
    (resp.links.map (fun kv => linkReferences kv.2)).flatten

def operationReferences (operation : Operation) : List String :=
  (operation.parameters.map parameterReferences).flatten ++
  (operation.requestBody.map requestBodyReferences).getD [] ++
  (operation.responses.map (fun kv => responseReferences kv.2)).flatten

def pathItemInnerReferences (item : PathItem) : List String :=
  (item.get.map operationReferences).getD [] ++
  (item.put.map operationReferences).getD [] ++
  (item.post.map operationReferences).getD [] ++
  (item.delete.map operationReferences).getD [] ++
  (item.options.map operationReferences).getD [] ++
  (item.head.map operationReferences).getD [] ++
  (item.patch.map operationReferences).getD [] ++
  (item.trace.map operationReferences).getD [] ++
  (item.parameters.map parameterReferences).flatten

def pathItemReferences (pathItem : RefOr PathItem) : List String :=
  match pathItem with
  | .reference r => [r]
  | .item item => pathItemInnerReferences item

def callbackReferences (callback : RefOr Callback) : List String :=
  match callback with
  | .reference r => [r]
  | .item callbackItem => (callbackItem.map (fun kv => pathItemInnerReferences kv.2)).flatten

def componentReferences (components : Components) : List String :=
  (components.schemas.map (fun kv => schemaReferences kv.2)).flatten ++
  (components.responses.map (fun kv => responseReferences kv.2)).flatten ++
  (components.parameters.map (fun kv => parameterReferences kv.2)).flatten ++
  (components.examples.map (fun kv => exampleReferences kv.2)).flatten ++
  (components.requestBodies.map (fun kv => requestBodyReferences kv.2)).flatten ++
  (components.headers.map (fun kv => headerReferences kv.2)).flatten ++
  (components.links.map (fun kv => linkReferences kv.2)).flatten ++
  (components.callbacks.map (fun kv => callbackReferences kv.2)).flatten

/-- All reference strings of a document, at the positions the reference
walker visits. -/
def documentReferences (oas : OpenAPI) : List String :=
  (oas.paths.map (fun kv => pathItemReferences kv.2)).flatten ++
  (oas.components.map componentReferences).getD []

/-- Resolution of a `$ref` string within a single document (spec §3.4). -/
def referenceResolvesIn (oas : OpenAPI) (ref : String) : Bool :=
  let comps := oas.components.getD {}
  if stringStartsWith ref "#/components/schemas/" then
    imContains comps.schemas (stringDrop ref "#/components/schemas/".length)
  else if stringStartsWith ref "#/components/responses/" then
    imContains comps.responses (stringDrop ref "#/components/responses/".length)
  else if stringStartsWith ref "#/components/parameters/" then
    imContains comps.parameters (stringDrop ref "#/components/parameters/".length)
  else if stringStartsWith ref "#/components/examples/" then
    imContains comps.examples (stringDrop ref "#/components/examples/".length)
  else if stringStartsWith ref "#/components/requestBodies/" then
    imContains comps.requestBodies (stringDrop ref "#/components/requestBodies/".length)
  else if stringStartsWith ref "#/components/headers/" then
    imContains comps.headers (stringDrop ref "#/components/headers/".length)
  else if stringStartsWith ref "#/components/links/" then
    imContains comps.links (stringDrop ref "#/components/links/".length)
  else if stringStartsWith ref "#/components/callbacks/" then
    imContains comps.callbacks (stringDrop ref "#/components/callbacks/".length)
  else if stringStartsWith ref "#/components/securitySchemes/" then
    imContains comps.securitySchemes (stringDrop ref "#/components/securitySchemes/".length)
  else if stringStartsWith ref "#/paths/" then
    imContains oas.paths (stringDrop ref "#/paths/".length)
  else false

/-! ## Claim-side definitions

These definitions follow the wording of the specification claims; the
theorems below compare them with the source-derived definitions above. -/

/-- Claim C5's behavior table for `applyDispute` (spec §4.2): no config keeps
the name; `Undisputed` applies the affix iff `alwaysApply` is true;
`Disputed` always applies the affix. -/
def applyDisputeSpecTable (dispute : Option Dispute) (name : String) (status : DisputeStatus) :
    String :=
  match dispute, status with
  | none, _ => name
  | some (.byPrefix p), .undisputed =>
    if p.alwaysApply.getD false then p.prefixValue ++ name else name
  | some (.byPrefix p), .disputed => p.prefixValue ++ name
  | some (.bySuffix sfx), .undisputed =>
    if sfx.alwaysApply.getD false then name ++ sfx.suffixValue else name
  | some (.bySuffix sfx), .disputed => name ++ sfx.suffixValue

/-- Claim C3: the first free candidate among `key ++ "1"` .. `key ++ "999"`. -/
def firstFreeNumericKey {T : Type} (results : IndexMap T) (key : String) : Option String :=
  ((List.range' 1 999).find? (fun i => (imGet results (key ++ toString i)).isNone)).map
    (fun i => key ++ toString i)

/-- Claim C3's slot selection for one component entry: `modifiedName` when
free or structurally equal, else (with a dispute) `preferredName` when free
or structurally equal, else the first free numeric candidate; `none` when
all of these slots are taken. -/
def claimedComponentSlot {T : Type} [BEq T] (results : IndexMap T) (key : String)
    (component : T) (dispute : Option Dispute) : Option String :=
  let modifiedName := applyDispute dispute key .undisputed
  if slotFreeOrEqual results modifiedName component then some modifiedName
  else
    match dispute with
    | some d =>
      let preferredName := applyDispute (some d) key .disputed
      if slotFreeOrEqual results preferredName component then some preferredName
      else firstFreeNumericKey results key
    | none => firstFreeNumericKey results key

/-- Claim C3's rewrite-table bookkeeping: the `modifiedName` entry when the
dispute renamed the component, then the chosen-slot entry in each renaming
case. -/
def claimedComponentRefMap (referenceModification : RefMap) (key slot : String)
    (dispute : Option Dispute) (prefixName : String) : RefMap :=
  let modifiedName := applyDispute dispute key .undisputed
  let rm1 :=
    if modifiedName != key then
      imInsert referenceModification
        ("#/components/" ++ prefixName ++ "/" ++ key)
        ("#/components/" ++ prefixName ++ "/" ++ modifiedName)
    else referenceModification
  if slot != modifiedName then
    imInsert rm1
      ("#/components/" ++ prefixName ++ "/" ++ key)
      ("#/components/" ++ prefixName ++ "/" ++ slot)
  else rm1

/-- Claim C6's survivor rule: an operation is kept iff its tags intersect a
non-empty `includeTags` and do not intersect a non-empty `excludeTags`. -/
def claimedKeepOperation (includeTags excludeTags : List String) (op : Operation) : Bool :=
  (includeTags.isEmpty || operationContainsAnyTag op includeTags) &&
  (excludeTags.isEmpty || !operationContainsAnyTag op excludeTags)

/-- Claim C6's per-slot filtering. -/
def claimedSelectSlot (includeTags excludeTags : List String) (slot : Option Operation) :
    Option Operation :=
  match slot with
  | some op => if claimedKeepOperation includeTags excludeTags op then some op else none
  | none => none

/-- Claim C6's per-path-item filtering: slots filtered by the survivor rule,
`Reference` path items untouched. -/
def claimedSelectItem (includeTags excludeTags : List String) (pi : RefOr PathItem) :
    RefOr PathItem :=
  match pi with
  | .item item => .item { item with
      get := claimedSelectSlot includeTags excludeTags item.get
      put := claimedSelectSlot includeTags excludeTags item.put
      post := claimedSelectSlot includeTags excludeTags item.post
      delete := claimedSelectSlot includeTags excludeTags item.delete
      options := claimedSelectSlot includeTags excludeTags item.options
      head := claimedSelectSlot includeTags excludeTags item.head
      patch := claimedSelectSlot includeTags excludeTags item.patch
      trace := claimedSelectSlot includeTags excludeTags item.trace }
  | .reference r => .reference r

/-- The operations populated in a path item (`Reference` items carry none). -/
def pathItemOperations (pathItem : RefOr PathItem) : List Operation :=
  match pathItem with
  | .reference _ => []
  | .item item =>
    item.get.toList ++ item.put.toList ++ item.post.toList ++ item.delete.toList ++
    item.options.toList ++ item.head.toList ++ item.patch.toList ++ item.trace.toList

/-- The `securitySchemes` map of a document (empty without components). -/
def securitySchemesOf (oas : OpenAPI) : IndexMap (RefOr SecurityScheme) :=
  match oas.components with
  | some c => c.securitySchemes
  | none => []

/-- Claim C8: the whole `securitySchemes` map of the first input, in order,
whose map is non-empty (empty when there is none). -/
def claimedFirstSecuritySchemes : List SingleMergeInput → IndexMap (RefOr SecurityScheme)
  | [] => []
  | input :: rest =>
    if !(securitySchemesOf input.oas).isEmpty then securitySchemesOf input.oas
    else claimedFirstSecuritySchemes rest

/-- The operation id of one slot, as a zero-or-one element list. -/
def slotOperationIds (slot : Option Operation) : List String :=
  match slot with
  | some op => op.operationId.toList
  | none => []

/-- The operation ids of a path item, in the processing order of
`ensure_unique_operation_ids`. -/
def pathItemOperationIds (pathItem : RefOr PathItem) : List String :=
  match pathItem with
  | .reference _ => []
  | .item item =>
    slotOperationIds item.get ++ slotOperationIds item.put ++ slotOperationIds item.post ++
    slotOperationIds item.delete ++ slotOperationIds item.patch ++ slotOperationIds item.head ++
    slotOperationIds item.trace ++ slotOperationIds item.options

/-- All operation ids of a paths map, in order. -/
def pathsOperationIds (paths : IndexMap (RefOr PathItem)) : List String :=
  (paths.map (fun kv => pathItemOperationIds kv.2)).flatten

/-- Claim C9: the first free id among `operationId ++ "1"` .. `++ "999"`. -/
def firstFreeNumericOperationId (seen : List String) (operationId : String) : Option String :=
  ((List.range' 1 999).find? (fun i => !seen.contains (operationId ++ toString i))).map
    (fun i => operationId ++ toString i)

/-- Claim C9's id-selection cascade: keep an unseen id, else the
dispute-applied id when free, else the first free numeric suffix, else the
`OperationIdConflict` error. -/
def claimedUniqueOperationId (operationId : String) (seen : List String)
    (dispute : Option Dispute) : Except ErrorMergeResult String :=
  if !seen.contains operationId then .ok operationId
  else
    let disputed := dispute.map (fun d => applyDispute (some d) operationId .disputed)
    let chosen :=
      match disputed with
      | some id2 => if !seen.contains id2 then some id2 else firstFreeNumericOperationId seen operationId
      | none => firstFreeNumericOperationId seen operationId
    match chosen with
    | some newId => .ok newId
    | none => .error
        { errorType := .operationIdConflict
          message := "Could not resolve a conflict for the operationId '" ++ operationId ++ "'" }

/-- Claim C4's per-input collected description: for an input whose
`description.append` is true, the right-trimmed `info.description`, prefixed
by a Markdown heading when `description.title` is set and included without a
heading when it is not. -/
def claimedInputDescription (input : SingleMergeInput) : Option String :=
  match input.description with
  | some descConfig =>
    if descConfig.append then
      match input.oas.info.description with
      | some d =>
        let trimmed := rustTrimEnd d
        match descConfig.title with
        | some title =>
          some (String.mk (List.replicate (title.headingLevel.getD 1) '#') ++ " " ++
            title.value ++ "\n\n" ++ trimmed)
        | none => some trimmed
      | none => none
    else none
  | none => none

/-- Claim C4's merged description: the collected descriptions joined by
`"\n\n"`. -/
def claimedMergedDescription (inputs : List SingleMergeInput) : Option String :=
  let ds := inputs.filterMap claimedInputDescription
  if ds.isEmpty then none else some (String.intercalate "\n\n" ds)

/-! ## Concrete example documents -/

/-- A minimal document used by several witnesses. -/
def exOasMinimal : OpenAPI :=
  { openapi := "3.0.0", info := { title := "T", version := "1.0.0" } }

/-- An input carrying both the deprecated `disputePrefix` and a new-format
`dispute`. -/
def exInputC10 : SingleMergeInput :=
  { oas := exOasMinimal
    dispute := some (.bySuffix { suffixValue := "S", alwaysApply := some true })
    disputePrefix := some "P" }

/-! ## Theorems for the claims -/

/-- C5: `apply_dispute` realizes the spec §4.2 behavior table for every
configuration, name and status: no config keeps the name unchanged;
`Undisputed` applies the prefix/suffix iff `alwaysApply` is true (unchanged
when false or unset); `Disputed` always applies the prefix/suffix. -/
theorem C5_apply_dispute_table (dispute : Option Dispute) (name : String)
    (status : DisputeStatus) :
    applyDispute dispute name status = applyDisputeSpecTable dispute name status := by
  cases dispute with
  | none => cases status <;> rfl
  | some d =>
    cases d with
    | byPrefix p =>
      cases status <;> cases h : p.alwaysApply.getD false <;>
        simp [applyDispute, applyDisputeSpecTable, h]
    | bySuffix sfx =>
      cases status <;> cases h : sfx.alwaysApply.getD false <;>
        simp [applyDispute, applyDisputeSpecTable, h]

/-- C10: when both the legacy `disputePrefix` and the new `dispute` field are
set, `get_dispute` returns the legacy prefix dispute (with `alwaysApply`
unset, which `apply_dispute` treats as `false`), and the new `dispute` field
is ignored. -/
theorem C10_dispute_prefix_precedence (input : SingleMergeInput) (p : String) (d : Dispute)
    (hp : input.disputePrefix = some p) (_hd : input.dispute = some d) :
    getDispute input = some (Dispute.byPrefix { prefixValue := p, alwaysApply := none }) ∧
    ∀ name status, applyDispute (getDispute input) name status =
      applyDispute (some (Dispute.byPrefix { prefixValue := p, alwaysApply := some false }))
        name status := by
  refine ⟨by simp [getDispute, hp], ?_⟩
  intro name status
  simp only [getDispute, hp]
  cases status <;> rfl

/-- C10 witness: a concrete input with both fields set. -/
theorem C10_witness :
    getDispute exInputC10 = some (Dispute.byPrefix { prefixValue := "P", alwaysApply := none }) ∧
    ∀ name status, applyDispute (getDispute exInputC10) name status =
      applyDispute (some (Dispute.byPrefix { prefixValue := "P", alwaysApply := some false }))
        name status :=
  C10_dispute_prefix_precedence exInputC10 "P"
    (.bySuffix { suffixValue := "S", alwaysApply := some true }) rfl rfl

/-- An input whose description is configured to append but has no title. -/
def exInputC4 : SingleMergeInput :=
  { oas := { openapi := "3.0.0"
             info := { title := "A", version := "1.0.0", description := some "hello " } }
    description := some { append := true, title := none } }

/-- An input with a top-level `x-` extension field. -/
def exInputC2 : SingleMergeInput :=
  { oas := { openapi := "3.0.0"
             info := { title := "X", version := "1.0.0" }
             extensions := [("x-foo", Json.str "bar")] } }

/-- The `Pet` schema of the C1 example. -/
def exSchemaPet : SchemaRO := .objectT [("name", .stringT)] none

/-- A GET operation whose 200 response references `#/components/schemas/Pet`. -/
def exOpC1 : Operation :=
  { tags := []
    operationId := some "getP"
    parameters := []
    requestBody := none
    responses := [("200", .item
      { headers := []
        content := [("application/json",
          { schema := some (.reference "#/components/schemas/Pet"), examples := [] })]
        links := [] })] }

/-- An input with an always-apply prefix dispute: its `Pet` schema is stored
as `PPet`, so every `$ref` to `Pet` must be rewritten for the output to stay
closed. -/
def exInputC1 : SingleMergeInput :=
  { oas := { openapi := "3.0.0"
             info := { title := "A", version := "1.0.0" }
             paths := [("/p", .item { get := some exOpC1 })]
             components := some { schemas := [("Pet", exSchemaPet)] } }
    dispute := some (.byPrefix { prefixValue := "P", alwaysApply := some true }) }

/-- C4: refuted on the code. For an input with `description.append = true`
and no `description.title`, `get_info_description_with_heading` returns
`None` (the `?` on `title`), so the description is dropped instead of being
included without a heading: `merge_infos` keeps the first input's original
(untrimmed) description, while the claim's collection produces the
right-trimmed description. -/
theorem C4_titleless_description_dropped :
    (mergeInfos [exInputC4]).description = some "hello " ∧
    claimedMergedDescription [exInputC4] = some "hello" ∧
    (some "hello " : Option String) ≠ some "hello" := by
  refine ⟨rfl, ?_, by decide⟩
  decide

/-- C2: refuted on the code. `merge_extensions` computes the union of the
inputs' top-level `x-*` fields and never writes it back (its own comment
says it is a placeholder), so a successful merge returns a document with no
extensions even when an input has one. -/
theorem C2_extensions_never_applied :
    ∃ out, merge [exInputC2] none = Except.ok out ∧
      out.extensions = [] ∧
      mergeExtensionsUnion [] [exInputC2] = [("x-foo", Json.str "bar")] :=
  ⟨_, rfl, rfl, rfl⟩

/-- C1: refuted on the code. `merge_paths_and_components` clones each path
item and component into the accumulator first and only then runs
`walk_all_references` on the scratch copy `oas`, which is dropped at the end
of the iteration; the rewritten references never reach the output. On an
input whose `Pet` schema is renamed to `PPet` by an always-apply prefix
dispute, the merge succeeds and the output still contains the reference
`#/components/schemas/Pet`, which resolves to nothing in the output. -/
theorem C1_reference_left_dangling :
    ∃ out, merge [exInputC1] none = Except.ok out ∧
      "#/components/schemas/Pet" ∈ documentReferences out ∧
      referenceResolvesIn out "#/components/schemas/Pet" = false :=
  ⟨_, rfl, by decide, by decide⟩

/-! ## Lemmas about the numeric retry loops -/

/-- The component retry loop agrees with a `find?` over `range'`. -/
theorem tryNumericComponentKeys_eq_find {T : Type} (results : IndexMap T) (key : String) :
    ∀ (k n : Nat), tryNumericComponentKeys results key n k =
      ((List.range' n k).find? (fun i => (imGet results (key ++ toString i)).isNone)).map
        (fun i => key ++ toString i)
  | 0, n => by simp [tryNumericComponentKeys]
  | k + 1, n => by
    rw [List.range'_succ]
    cases h : (imGet results (key ++ toString n)).isNone with
    | true => simp [tryNumericComponentKeys, h, List.find?_cons]
    | false =>
      simp only [tryNumericComponentKeys, h, List.find?_cons, if_false, Bool.false_eq_true,
        cond_false]
      exact tryNumericComponentKeys_eq_find results key k (n + 1)

/-- The operation-id retry loop agrees with a `find?` over `range'`. -/
theorem tryNumericOperationIds_eq_find (seen : List String) (operationId : String) :
    ∀ (k n : Nat), tryNumericOperationIds seen operationId n k =
      ((List.range' n k).find? (fun i => !seen.contains (operationId ++ toString i))).map
        (fun i => operationId ++ toString i)
  | 0, n => by simp [tryNumericOperationIds]
  | k + 1, n => by
    rw [List.range'_succ, List.find?_cons]
    cases h : seen.contains (operationId ++ toString n) with
    | false =>
      have h2 : (operationId ++ toString n) ∉ seen := by simpa using h
      simp [tryNumericOperationIds, h, h2]
    | true =>
      simp only [tryNumericOperationIds, h, Bool.not_true, if_false, Bool.false_eq_true,
        cond_false]
      exact tryNumericOperationIds_eq_find seen operationId k (n + 1)

/-- A slot that fails `slotFreeOrEqual` is occupied. -/
theorem slotFreeOrEqual_false_occupied {T : Type} [BEq T] (results : IndexMap T)
    (k : String) (component : T) (h : slotFreeOrEqual results k component = false) :
    (imGet results k).isNone = false := by
  unfold slotFreeOrEqual at h
  cases hg : imGet results k with
  | none => rw [hg] at h; simp at h
  | some existing => simp [hg]

/-- A slot produced by `firstFreeNumericKey` is free. -/
theorem firstFreeNumericKey_free {T : Type} (results : IndexMap T) (key slot : String)
    (h : firstFreeNumericKey results key = some slot) :
    (imGet results slot).isNone = true := by
  unfold firstFreeNumericKey at h
  cases hf : (List.range' 1 999).find? (fun i => (imGet results (key ++ toString i)).isNone) with
  | none => rw [hf] at h; simp at h
  | some i =>
    rw [hf] at h
    have hp := List.find?_some hf
    simp only [Option.map] at h
    have h2 : key ++ toString i = slot := by
      cases h
      rfl
    rw [← h2]
    exact hp

/-- C3: the per-entry behavior of `process_components_with_prefix`: the
component is inserted at `modifiedName` when that slot is free or
structurally equal; otherwise (with a dispute present) at `preferredName`
when free or structurally equal; otherwise at the first free candidate among
`name ++ "1"` .. `name ++ "999"`, recording the rewrite-table entry in each
renaming case; and the entry fails with `ComponentDefinitionConflict`
exactly when all of these slots are taken. -/
theorem C3_component_conflict_resolution {T : Type} [BEq T]
    (results : IndexMap T) (referenceModification : RefMap)
    (key : String) (component : T) (dispute : Option Dispute) (prefixName : String) :
    processSingleComponent results referenceModification key component dispute prefixName =
      match claimedComponentSlot results key component dispute with
      | some slot => .ok (imInsert results slot component,
          claimedComponentRefMap referenceModification key slot dispute prefixName)
      | none => .error
          { errorType := .componentDefinitionConflict
            message := "The \"" ++ key ++ "\" definition had a duplicate in a previous input and could not be deduplicated." } := by
  unfold processSingleComponent claimedComponentSlot claimedComponentRefMap
  cases hfree : slotFreeOrEqual results (applyDispute dispute key .undisputed) component with
  | true => simp [hfree]
  | false =>
    have hocc := slotFreeOrEqual_false_occupied results _ component hfree
    cases dispute with
    | none =>
      simp only [hfree, Bool.false_eq_true, if_false]
      rw [tryNumericComponentKeys_eq_find]
      cases hf : (List.range' 1 999).find?
          (fun i => (imGet results (key ++ toString i)).isNone) with
      | none => simp [firstFreeNumericKey, hf]
      | some i =>
        have hN : firstFreeNumericKey results key = some (key ++ toString i) := by
          simp [firstFreeNumericKey, hf]
        have hfreeN := firstFreeNumericKey_free results key _ hN
        have hne : ((key ++ toString i) != applyDispute none key .undisputed) = true := by
          rw [bne_iff_ne]
          intro he
          rw [he, hocc] at hfreeN
          exact Bool.false_ne_true hfreeN
        simp [firstFreeNumericKey, hf, hne]
    | some d =>
      cases hpref : slotFreeOrEqual results (applyDispute (some d) key .disputed) component with
      | true =>
        have hne : (applyDispute (some d) key .disputed !=
            applyDispute (some d) key .undisputed) = true := by
          rw [bne_iff_ne]
          intro he
          rw [he, hfree] at hpref
          exact Bool.false_ne_true hpref
        simp [hfree, hpref, hne]
      | false =>
        simp only [hfree, hpref, Bool.false_eq_true, if_false]
        rw [tryNumericComponentKeys_eq_find]
        cases hf : (List.range' 1 999).find?
            (fun i => (imGet results (key ++ toString i)).isNone) with
        | none => simp [firstFreeNumericKey, hf]
        | some i =>
          have hN : firstFreeNumericKey results key = some (key ++ toString i) := by
            simp [firstFreeNumericKey, hf]
          have hfreeN := firstFreeNumericKey_free results key _ hN
          have hne : ((key ++ toString i) != applyDispute (some d) key .undisputed) = true := by
            rw [bne_iff_ne]
            intro he
            rw [he, hocc] at hfreeN
            exact Bool.false_ne_true hfreeN
          simp [firstFreeNumericKey, hf, hne]

/-! ## Lemmas for operation selection -/

/-- With both tag lists non-empty, exclude-after-include equals the claimed
survivor rule, slot by slot. -/
theorem selectSlot_both (incl excl : List String) (h1 : incl.isEmpty = false)
    (h2 : excl.isEmpty = false) (slot : Option Operation) :
    dropSlotIfTagged excl (keepSlotIfTagged incl slot) = claimedSelectSlot incl excl slot := by
  cases slot with
  | none => rfl
  | some op =>
    cases c1 : operationContainsAnyTag op incl <;> cases c2 : operationContainsAnyTag op excl <;>
      simp [dropSlotIfTagged, keepSlotIfTagged, claimedSelectSlot, claimedKeepOperation,
        h1, h2, c1, c2]

/-- With only the include list non-empty, include filtering equals the
claimed survivor rule. -/
theorem selectSlot_includeOnly (incl excl : List String) (h1 : incl.isEmpty = false)
    (h2 : excl.isEmpty = true) (slot : Option Operation) :
    keepSlotIfTagged incl slot = claimedSelectSlot incl excl slot := by
  cases slot with
  | none => rfl
  | some op =>
    cases c1 : operationContainsAnyTag op incl <;>
      simp [keepSlotIfTagged, claimedSelectSlot, claimedKeepOperation, h1, h2, c1]

/-- With only the exclude list non-empty, exclude filtering equals the
claimed survivor rule. -/
theorem selectSlot_excludeOnly (incl excl : List String) (h1 : incl.isEmpty = true)
    (h2 : excl.isEmpty = false) (slot : Option Operation) :
    dropSlotIfTagged excl slot = claimedSelectSlot incl excl slot := by
  cases slot with
  | none => rfl
  | some op =>
    cases c2 : operationContainsAnyTag op excl <;>
      simp [dropSlotIfTagged, claimedSelectSlot, claimedKeepOperation, h1, h2, c2]

/-- With both lists empty, the claimed survivor rule keeps every slot. -/
theorem selectSlot_none (incl excl : List String) (h1 : incl.isEmpty = true)
    (h2 : excl.isEmpty = true) (slot : Option Operation) :
    claimedSelectSlot incl excl slot = slot := by
  cases slot with
  | none => rfl
  | some op => simp [claimedSelectSlot, claimedKeepOperation, h1, h2]

/-- Every operation surviving the claimed per-item filtering satisfies the
claimed survivor rule. -/
theorem mem_claimedSelectSlot (incl excl : List String) (s : Option Operation) (op : Operation)
    (h : op ∈ (claimedSelectSlot incl excl s).toList) :
    claimedKeepOperation incl excl op = true := by
  cases s with
  | none => simp [claimedSelectSlot] at h
  | some op0 =>
    simp only [claimedSelectSlot] at h
    cases hk : claimedKeepOperation incl excl op0 with
    | true =>
      simp [hk] at h
      rw [h]
      exact hk
    | false =>
      simp [hk] at h

/-- Item-level form of `selectSlot_both`. -/
theorem selectItem_both (incl excl : List String) (h1 : incl.isEmpty = false)
    (h2 : excl.isEmpty = false) (pi : RefOr PathItem) :
    dropOperationsFromItem excl (includeOperationsInItem incl pi) =
      claimedSelectItem incl excl pi := by
  cases pi with
  | reference r => rfl
  | item item =>
    simp [dropOperationsFromItem, includeOperationsInItem, claimedSelectItem,
      selectSlot_both incl excl h1 h2]

/-- Item-level form of `selectSlot_includeOnly`. -/
theorem selectItem_includeOnly (incl excl : List String) (h1 : incl.isEmpty = false)
    (h2 : excl.isEmpty = true) (pi : RefOr PathItem) :
    includeOperationsInItem incl pi = claimedSelectItem incl excl pi := by
  cases pi with
  | reference r => rfl
  | item item =>
    simp [includeOperationsInItem, claimedSelectItem, selectSlot_includeOnly incl excl h1 h2]

/-- Item-level form of `selectSlot_excludeOnly`. -/
theorem selectItem_excludeOnly (incl excl : List String) (h1 : incl.isEmpty = true)
    (h2 : excl.isEmpty = false) (pi : RefOr PathItem) :
    dropOperationsFromItem excl pi = claimedSelectItem incl excl pi := by
  cases pi with
  | reference r => rfl
  | item item =>
    simp [dropOperationsFromItem, claimedSelectItem, selectSlot_excludeOnly incl excl h1 h2]

/-- Item-level form of `selectSlot_none`. -/
theorem selectItem_none (incl excl : List String) (h1 : incl.isEmpty = true)
    (h2 : excl.isEmpty = true) (pi : RefOr PathItem) :
    claimedSelectItem incl excl pi = pi := by
  cases pi with
  | reference r => rfl
  | item item =>
    simp [claimedSelectItem, selectSlot_none incl excl h1 h2]

/-- Every operation of a claim-filtered path item satisfies the survivor
rule. -/
theorem mem_pathItemOperations_claimed (incl excl : List String) (pi : RefOr PathItem)
    (op : Operation) (h : op ∈ pathItemOperations (claimedSelectItem incl excl pi)) :
    claimedKeepOperation incl excl op = true := by
  cases pi with
  | reference r => simp [claimedSelectItem, pathItemOperations] at h
  | item item =>
    simp only [claimedSelectItem, pathItemOperations, List.mem_append] at h
    rcases h with ((((((h | h) | h) | h) | h) | h) | h) | h <;>
      exact mem_claimedSelectSlot incl excl _ op h

/-- C6: `run_operation_selection` removes the operations whose tags do not
intersect a non-empty `includeTags`, then those whose tags intersect a
non-empty `excludeTags` — equivalently, exactly the operations satisfying
the claimed survivor rule remain, and `$ref` path items are untouched;
consequently an operation carrying a tag listed in both `includeTags` and
`excludeTags` is absent from the result (exclude wins). -/
theorem C6_operation_selection (oas : OpenAPI) (selection : OperationSelection) :
    runOperationSelection oas (some selection) =
      { oas with paths := oas.paths.map (fun kv =>
          (kv.1, claimedSelectItem (selection.includeTags.getD [])
            (selection.excludeTags.getD []) kv.2)) } ∧
    (∀ t, t ∈ selection.includeTags.getD [] → t ∈ selection.excludeTags.getD [] →
      ∀ p pi, (p, pi) ∈ (runOperationSelection oas (some selection)).paths →
        ∀ op ∈ pathItemOperations pi, t ∉ op.tags) := by
  have hmain : runOperationSelection oas (some selection) =
      { oas with paths := oas.paths.map (fun kv =>
          (kv.1, claimedSelectItem (selection.includeTags.getD [])
            (selection.excludeTags.getD []) kv.2)) } := by
    simp only [runOperationSelection]
    cases h1 : (selection.includeTags.getD []).isEmpty with
    | true =>
      cases h2 : (selection.excludeTags.getD []).isEmpty with
      | true =>
        simp only [h1, h2, Bool.not_true, Bool.false_eq_true, if_false]
        have : ∀ kv : String × RefOr PathItem,
            (kv.1, claimedSelectItem (selection.includeTags.getD [])
              (selection.excludeTags.getD []) kv.2) = kv := by
          intro kv
          rw [selectItem_none _ _ h1 h2]
        simp [this]
      | false =>
        simp only [h1, h2, Bool.not_true, Bool.not_false, Bool.false_eq_true, if_false, if_true,
          dropOperationsThatHaveTags, h2]
        have : ∀ kv : String × RefOr PathItem,
            (kv.1, dropOperationsFromItem (selection.excludeTags.getD []) kv.2) =
            (kv.1, claimedSelectItem (selection.includeTags.getD [])
              (selection.excludeTags.getD []) kv.2) := by
          intro kv
          rw [selectItem_excludeOnly _ _ h1 h2]
        simp [this]
    | false =>
      cases h2 : (selection.excludeTags.getD []).isEmpty with
      | true =>
        simp only [h1, h2, Bool.not_true, Bool.not_false, Bool.false_eq_true, if_false, if_true,
          includeOperationsThatHaveTags, h1]
        have : ∀ kv : String × RefOr PathItem,
            (kv.1, includeOperationsInItem (selection.includeTags.getD []) kv.2) =
            (kv.1, claimedSelectItem (selection.includeTags.getD [])
              (selection.excludeTags.getD []) kv.2) := by
          intro kv
          rw [selectItem_includeOnly _ _ h1 h2]
        simp [this]
      | false =>
        simp only [h1, h2, Bool.not_false, if_true,
          includeOperationsThatHaveTags, dropOperationsThatHaveTags, Bool.false_eq_true, if_false,
          List.map_map]
        have : ∀ kv : String × RefOr PathItem,
            ((fun kv : String × RefOr PathItem =>
                (kv.1, dropOperationsFromItem (selection.excludeTags.getD []) kv.2)) ∘
              (fun kv : String × RefOr PathItem =>
                (kv.1, includeOperationsInItem (selection.includeTags.getD []) kv.2))) kv =
            (kv.1, claimedSelectItem (selection.includeTags.getD [])
              (selection.excludeTags.getD []) kv.2) := by
          intro kv
          simp only [Function.comp]
          rw [selectItem_both _ _ h1 h2]
        congr 1
        congr 1
        funext kv
        exact this kv
  refine ⟨hmain, ?_⟩
  intro t _ht1 ht2 p pi hm op hop htags
  rw [hmain] at hm
  simp only [List.mem_map] at hm
  obtain ⟨kv, _hkv, hEq⟩ := hm
  have hpi : claimedSelectItem (selection.includeTags.getD [])
      (selection.excludeTags.getD []) kv.2 = pi := congrArg Prod.snd hEq
  rw [← hpi] at hop
  have hkeep := mem_pathItemOperations_claimed _ _ _ _ hop
  have hexclne : (selection.excludeTags.getD []).isEmpty = false := by
    cases hx : selection.excludeTags.getD [] with
    | nil => rw [hx] at ht2; exact absurd ht2 (List.not_mem_nil t)
    | cons a l => simp [hx]
  unfold claimedKeepOperation at hkeep
  rw [Bool.and_eq_true] at hkeep
  have h2 := hkeep.2
  rw [hexclne] at h2
  simp only [Bool.false_or] at h2
  have hB : operationContainsAnyTag op (selection.excludeTags.getD []) = true := by
    unfold operationContainsAnyTag
    rw [List.any_eq_true]
    exact ⟨t, htags, by simpa using ht2⟩
  rw [hB] at h2
  simp at h2

/-- An operation tagged only `pub`, surviving the C6 witness selection. -/
def exOpPub : Operation :=
  { tags := ["pub"], operationId := some "listPub", parameters := [], requestBody := none,
    responses := [] }

/-- A document with one GET operation tagged `pub`. -/
def exOasC6 : OpenAPI :=
  { openapi := "3.0.0", info := { title := "S", version := "1" }
    paths := [("/p", .item { get := some exOpPub })] }

/-- A selection whose `both` tag is both included and excluded. -/
def exSelC6 : OperationSelection :=
  { includeTags := some ["pub", "both"], excludeTags := some ["both"] }

/-- C6 witness: at a concrete document and selection with the tag `both` in
both lists, the surviving operation cannot carry `both`. -/
theorem C6_witness : "both" ∉ exOpPub.tags :=
  (C6_operation_selection exOasC6 exSelC6).2 "both" (by decide) (by decide)
    "/p" (RefOr.item { get := some exOpPub })
    (by
      have h : (runOperationSelection exOasC6 (some exSelC6)).paths =
          [("/p", RefOr.item { get := some exOpPub })] := rfl
      rw [h]
      exact List.mem_singleton_self _)
    exOpPub
    (by
      have h : pathItemOperations (RefOr.item { get := some exOpPub }) = [exOpPub] := rfl
      rw [h]
      exact List.mem_singleton_self _)

/-! ## Elimination lemmas for `Except` binds -/

/-- Split a failing bind into its two possible sources. -/
theorem bind_error_elim {ε α β : Type} (x : Except ε α) (f : α → Except ε β) (e : ε)
    (h : (x >>= f) = .error e) :
    x = .error e ∨ ∃ a, x = .ok a ∧ f a = .error e := by
  cases x with
  | error e2 =>
    left
    have hx : (Except.error e2 >>= f : Except ε β) = .error e2 := rfl
    rw [hx] at h
    cases h
    rfl
  | ok a =>
    right
    refine ⟨a, rfl, ?_⟩
    have hx : (Except.ok a >>= f : Except ε β) = f a := rfl
    rw [hx] at h
    exact h

/-- A succeeding bind factors through a succeeding first component. -/
theorem bind_ok_elim {ε α β : Type} (x : Except ε α) (f : α → Except ε β) (b : β)
    (h : (x >>= f) = .ok b) :
    ∃ a, x = .ok a ∧ f a = .ok b := by
  cases x with
  | error e2 =>
    have hx : (Except.error e2 >>= f : Except ε β) = .error e2 := rfl
    rw [hx] at h
    cases h
  | ok a =>
    refine ⟨a, rfl, ?_⟩
    have hx : (Except.ok a >>= f : Except ε β) = f a := rfl
    rw [hx] at h
    exact h

/-! ## Error-kind lemmas: each failure site produces its own error kind -/

/-- `find_unique_operation_id` fails only with `OperationIdConflict`. -/
theorem findUniqueOperationId_error_type (operationId : String) (seen : List String)
    (dispute : Option Dispute) (e : ErrorMergeResult)
    (h : findUniqueOperationId operationId seen dispute = .error e) :
    e.errorType = .operationIdConflict := by
  simp only [findUniqueOperationId] at h
  split at h
  · cases h
  · split at h
    · cases h
    · split at h
      · cases h
      · cases h
        rfl

/-- One slot of `ensure_unique_operation_ids` fails only with
`OperationIdConflict`. -/
theorem ensureSlotUniqueOperationId_error_type (slot : Option Operation)
    (seen : List String) (dispute : Option Dispute) (e : ErrorMergeResult)
    (h : ensureSlotUniqueOperationId slot seen dispute = .error e) :
    e.errorType = .operationIdConflict := by
  cases slot with
  | none => cases h
  | some op =>
    simp only [ensureSlotUniqueOperationId] at h
    cases hid : op.operationId with
    | none => rw [hid] at h; cases h
    | some operationId =>
      rw [hid] at h
      rcases bind_error_elim _ _ _ h with h2 | ⟨a, _, h3⟩
      · exact findUniqueOperationId_error_type _ _ _ _ h2
      · cases h3

/-- `ensure_unique_operation_ids` fails only with `OperationIdConflict`. -/
theorem ensureUniqueOperationIds_error_type (pathItem : RefOr PathItem)
    (seen : List String) (dispute : Option Dispute) (e : ErrorMergeResult)
    (h : ensureUniqueOperationIds pathItem seen dispute = .error e) :
    e.errorType = .operationIdConflict := by
  cases pathItem with
  | reference r => cases h
  | item item =>
    simp only [ensureUniqueOperationIds] at h
    rcases bind_error_elim _ _ _ h with h1 | ⟨⟨g, s1⟩, _, h⟩
    · exact ensureSlotUniqueOperationId_error_type _ _ _ _ h1
    rcases bind_error_elim _ _ _ h with h1 | ⟨⟨pu, s2⟩, _, h⟩
    · exact ensureSlotUniqueOperationId_error_type _ _ _ _ h1
    rcases bind_error_elim _ _ _ h with h1 | ⟨⟨po, s3⟩, _, h⟩
    · exact ensureSlotUniqueOperationId_error_type _ _ _ _ h1
    rcases bind_error_elim _ _ _ h with h1 | ⟨⟨d, s4⟩, _, h⟩
    · exact ensureSlotUniqueOperationId_error_type _ _ _ _ h1
    rcases bind_error_elim _ _ _ h with h1 | ⟨⟨pa, s5⟩, _, h⟩
    · exact ensureSlotUniqueOperationId_error_type _ _ _ _ h1
    rcases bind_error_elim _ _ _ h with h1 | ⟨⟨hh, s6⟩, _, h⟩
    · exact ensureSlotUniqueOperationId_error_type _ _ _ _ h1
    rcases bind_error_elim _ _ _ h with h1 | ⟨⟨t, s7⟩, _, h⟩
    · exact ensureSlotUniqueOperationId_error_type _ _ _ _ h1
    rcases bind_error_elim _ _ _ h with h1 | ⟨⟨o, s8⟩, _, h⟩
    · exact ensureSlotUniqueOperationId_error_type _ _ _ _ h1
    cases h

/-- One component entry fails only with `ComponentDefinitionConflict`. -/
theorem processSingleComponent_error_type {T : Type} [BEq T] (results : IndexMap T)
    (rm : RefMap) (key : String) (component : T) (dispute : Option Dispute)
    (prefixName : String) (e : ErrorMergeResult)
    (h : processSingleComponent results rm key component dispute prefixName = .error e) :
    e.errorType = .componentDefinitionConflict := by
  simp only [processSingleComponent] at h
  split at h
  · cases h
  · split at h
    · cases h
    · split at h
      · cases h
      · cases h
        rfl

/-- `process_components_with_prefix` fails only with
`ComponentDefinitionConflict`. -/
theorem processComponentsWithPrefix_error_type {T : Type} [BEq T] :
    ∀ (components : IndexMap T) (results : IndexMap T) (rm : RefMap)
      (dispute : Option Dispute) (prefixName : String) (e : ErrorMergeResult),
      processComponentsWithPrefix results components dispute rm prefixName = .error e →
      e.errorType = .componentDefinitionConflict
  | [], _, _, _, _, _, h => by cases h
  | (key, component) :: rest, results, rm, dispute, prefixName, e, h => by
    simp only [processComponentsWithPrefix] at h
    rcases bind_error_elim _ _ _ h with h1 | ⟨⟨r2, m2⟩, _, h2⟩
    · exact processSingleComponent_error_type _ _ _ _ _ _ _ h1
    · exact processComponentsWithPrefix_error_type rest r2 m2 dispute prefixName e h2

/-- A guarded kind block fails only with `ComponentDefinitionConflict`. -/
theorem processKindGuarded_error_type {T : Type} [BEq T] (results : IndexMap T)
    (components : IndexMap T) (dispute : Option Dispute) (rm : RefMap)
    (prefixName : String) (e : ErrorMergeResult)
    (h : processKindGuarded results components dispute rm prefixName = .error e) :
    e.errorType = .componentDefinitionConflict := by
  simp only [processKindGuarded] at h
  split at h
  · cases h
  · exact processComponentsWithPrefix_error_type _ _ _ _ _ _ h

/-- The per-input component block fails only with
`ComponentDefinitionConflict`. -/
theorem processInputComponents_error_type (components : Components)
    (resultComponents : Components) (dispute : Option Dispute) (rm : RefMap)
    (e : ErrorMergeResult)
    (h : processInputComponents components resultComponents dispute rm = .error e) :
    e.errorType = .componentDefinitionConflict := by
  simp only [processInputComponents] at h
  rcases bind_error_elim _ _ _ h with h1 | ⟨⟨a1, m1⟩, _, h⟩
  · exact processKindGuarded_error_type _ _ _ _ _ _ h1
  rcases bind_error_elim _ _ _ h with h1 | ⟨⟨a2, m2⟩, _, h⟩
  · exact processKindGuarded_error_type _ _ _ _ _ _ h1
  rcases bind_error_elim _ _ _ h with h1 | ⟨⟨a3, m3⟩, _, h⟩
  · exact processKindGuarded_error_type _ _ _ _ _ _ h1
  rcases bind_error_elim _ _ _ h with h1 | ⟨⟨a4, m4⟩, _, h⟩
  · exact processKindGuarded_error_type _ _ _ _ _ _ h1
  rcases bind_error_elim _ _ _ h with h1 | ⟨⟨a5, m5⟩, _, h⟩
  · exact processKindGuarded_error_type _ _ _ _ _ _ h1
  rcases bind_error_elim _ _ _ h with h1 | ⟨⟨a6, m6⟩, _, h⟩
  · exact processKindGuarded_error_type _ _ _ _ _ _ h1
  rcases bind_error_elim _ _ _ h with h1 | ⟨⟨a7, m7⟩, _, h⟩
  · exact processKindGuarded_error_type _ _ _ _ _ _ h1
  rcases bind_error_elim _ _ _ h with h1 | ⟨⟨a8, m8⟩, _, h⟩
  · exact processKindGuarded_error_type _ _ _ _ _ _ h1
  cases h

/-- The `DuplicatePaths` message format: it names the input index, the
original path and the mapped path. -/
def duplicatePathsMessage (inputIndex : Nat) (originalPath mappedPath : String) : String :=
  "Input " ++ toString inputIndex ++ ": The path '" ++ originalPath ++ "' maps to '" ++
    mappedPath ++ "' and this has already been added by another input file"

/-- When the mapped path is already present, the per-path step fails with
exactly the `DuplicatePaths` error. -/
theorem insertPathItem_dup (inputIndex : Nat) (pm : Option PathModification)
    (dispute : Option Dispute) (seen : List String) (rp : IndexMap (RefOr PathItem))
    (rm : RefMap) (orig : String) (item : RefOr PathItem)
    (hc : imContains rp (applyPathModification orig pm) = true) :
    insertPathItem inputIndex pm dispute seen rp rm orig item = .error
      { errorType := .duplicatePaths
        message := duplicatePathsMessage inputIndex orig (applyPathModification orig pm) } := by
  simp only [insertPathItem, hc, duplicatePathsMessage]
  rfl

/-- A `DuplicatePaths` failure of the per-path step happens only at the
duplicate check, with the stated message. -/
theorem insertPathItem_error_elim (inputIndex : Nat) (pm : Option PathModification)
    (dispute : Option Dispute) (seen : List String) (rp : IndexMap (RefOr PathItem))
    (rm : RefMap) (orig : String) (item : RefOr PathItem) (e : ErrorMergeResult)
    (h : insertPathItem inputIndex pm dispute seen rp rm orig item = .error e)
    (ht : e.errorType = .duplicatePaths) :
    imContains rp (applyPathModification orig pm) = true ∧
    e.message = duplicatePathsMessage inputIndex orig (applyPathModification orig pm) := by
  simp only [insertPathItem] at h
  split at h
  · cases h
    exact ⟨by assumption, rfl⟩
  · rcases bind_error_elim _ _ _ h with h1 | ⟨⟨item2, seen2⟩, _, h2⟩
    · have := ensureUniqueOperationIds_error_type _ _ _ _ h1
      rw [this] at ht
      exact absurd ht (by decide)
    · cases h2

/-- A `DuplicatePaths` failure of the per-input path loop carries the stated
message for some path of the input. -/
theorem processPaths_dup : ∀ (paths : List (String × RefOr PathItem)) (inputIndex : Nat)
    (pm : Option PathModification) (dispute : Option Dispute) (seen : List String)
    (rp : IndexMap (RefOr PathItem)) (rm : RefMap) (e : ErrorMergeResult),
    processPaths inputIndex pm dispute seen rp rm paths = .error e →
    e.errorType = .duplicatePaths →
    ∃ orig, e.message = duplicatePathsMessage inputIndex orig (applyPathModification orig pm)
  | [], _, _, _, _, _, _, _, h, _ => by cases h
  | (orig, item) :: rest, inputIndex, pm, dispute, seen, rp, rm, e, h, ht => by
    simp only [processPaths] at h
    rcases bind_error_elim _ _ _ h with h1 | ⟨⟨s2, rp2, rm2⟩, _, h2⟩
    · exact ⟨orig, (insertPathItem_error_elim _ _ _ _ _ _ _ _ _ h1 ht).2⟩
    · exact processPaths_dup rest inputIndex pm dispute s2 rp2 rm2 e h2 ht

/-- The components-presence guard fails only with
`ComponentDefinitionConflict`. -/
theorem processComponentsIfPresent_error_type (componentsOpt : Option Components)
    (resultComponents : Components) (dispute : Option Dispute) (rm : RefMap)
    (e : ErrorMergeResult)
    (h : processComponentsIfPresent componentsOpt resultComponents dispute rm = .error e) :
    e.errorType = .componentDefinitionConflict := by
  cases componentsOpt with
  | none => cases h
  | some components => exact processInputComponents_error_type _ _ _ _ _ h

/-- A `DuplicatePaths` failure of one input iteration carries the stated
message for some original path, with that input's path modification. -/
theorem processInput_dup (inputIndex : Nat) (input : SingleMergeInput) (st : MergeState)
    (e : ErrorMergeResult) (h : processInput inputIndex input st = .error e)
    (ht : e.errorType = .duplicatePaths) :
    ∃ orig, e.message =
      duplicatePathsMessage inputIndex orig (applyPathModification orig input.pathModification) := by
  simp only [processInput] at h
  rcases bind_error_elim _ _ _ h with h1 | ⟨⟨rc, rm⟩, _, h⟩
  · have h2 := processComponentsIfPresent_error_type _ _ _ _ _ h1
    rw [h2] at ht
    exact absurd ht (by decide)
  · rcases bind_error_elim _ _ _ h with h1 | ⟨⟨s2, rp2, rm2⟩, _, h2⟩
    · exact processPaths_dup _ _ _ _ _ _ _ _ h1 ht
    · cases h2

/-- A `DuplicatePaths` failure of the input loop carries the stated message
for some input index and original path. -/
theorem mergeInputsLoop_dup : ∀ (inputs : List SingleMergeInput) (inputIndex : Nat)
    (st : MergeState) (e : ErrorMergeResult),
    mergeInputsLoop inputIndex inputs st = .error e →
    e.errorType = .duplicatePaths →
    ∃ j input orig, inputs.get? j = some input ∧
      e.message = duplicatePathsMessage (inputIndex + j) orig
        (applyPathModification orig input.pathModification)
  | [], _, _, _, h, _ => by cases h
  | input :: rest, inputIndex, st, e, h, ht => by
    simp only [mergeInputsLoop] at h
    rcases bind_error_elim _ _ _ h with h1 | ⟨st2, _, h2⟩
    · obtain ⟨orig, hmsg⟩ := processInput_dup inputIndex input st e h1 ht
      exact ⟨0, input, orig, rfl, by simpa using hmsg⟩
    · obtain ⟨j, input2, orig, hget, hmsg⟩ := mergeInputsLoop_dup rest (inputIndex + 1) st2 e h2 ht
      refine ⟨j + 1, input2, orig, by simpa using hget, ?_⟩
      have : inputIndex + 1 + j = inputIndex + (j + 1) := by omega
      rw [this] at hmsg
      exact hmsg

/-- C7: `merge` fails with `DuplicatePaths` exactly when some input's path,
after that input's path modification, equals a path already inserted into
the accumulated paths; the error message names the input index, the original
path and the mapped path. -/
theorem C7_duplicate_paths :
    (∀ (inputIndex : Nat) (pm : Option PathModification) (dispute : Option Dispute)
      (seen : List String) (rp : IndexMap (RefOr PathItem)) (rm : RefMap)
      (orig : String) (item : RefOr PathItem),
      (∃ e, insertPathItem inputIndex pm dispute seen rp rm orig item = .error e ∧
          e.errorType = .duplicatePaths) ↔
        imContains rp (applyPathModification orig pm) = true) ∧
    (∀ (inputIndex : Nat) (pm : Option PathModification) (dispute : Option Dispute)
      (seen : List String) (rp : IndexMap (RefOr PathItem)) (rm : RefMap)
      (orig : String) (item : RefOr PathItem) (e : ErrorMergeResult),
      insertPathItem inputIndex pm dispute seen rp rm orig item = .error e →
      e.errorType = .duplicatePaths →
      e.message = duplicatePathsMessage inputIndex orig (applyPathModification orig pm)) ∧
    (∀ (inputs : List SingleMergeInput) (e : ErrorMergeResult),
      mergePathsAndComponents inputs = .error e →
      e.errorType = .duplicatePaths →
      ∃ j input orig, inputs.get? j = some input ∧
        e.message = duplicatePathsMessage j orig
          (applyPathModification orig input.pathModification)) := by
  refine ⟨?_, ?_, ?_⟩
  · intro inputIndex pm dispute seen rp rm orig item
    constructor
    · rintro ⟨e, he, ht⟩
      exact (insertPathItem_error_elim _ _ _ _ _ _ _ _ _ he ht).1
    · intro hc
      exact ⟨_, insertPathItem_dup _ _ _ _ _ _ _ _ hc, rfl⟩
  · intro inputIndex pm dispute seen rp rm orig item e he ht
    exact (insertPathItem_error_elim _ _ _ _ _ _ _ _ _ he ht).2
  · intro inputs e h ht
    simp only [mergePathsAndComponents] at h
    rcases bind_error_elim _ _ _ h with h1 | ⟨st, _, h2⟩
    · obtain ⟨j, input, orig, hget, hmsg⟩ := mergeInputsLoop_dup inputs 0 {} e h1 ht
      exact ⟨j, input, orig, hget, by simpa using hmsg⟩
    · cases h2

/-- An empty path item used by witnesses. -/
def exPathItemEmpty : RefOr PathItem := .item {}

/-- C7 witness: a concrete collision triggers the `DuplicatePaths` error. -/
theorem C7_witness :
    ∃ e, insertPathItem 1 none none [] [("/a", exPathItemEmpty)] [] "/a" exPathItemEmpty =
        .error e ∧ e.errorType = .duplicatePaths :=
  (C7_duplicate_paths.1 1 none none [] [("/a", exPathItemEmpty)] [] "/a"
    exPathItemEmpty).mpr (by decide)

/-! ## Lemmas for the securitySchemes rule (C8) -/

/-- Exclude filtering leaves the components block untouched. -/
theorem dropOperationsThatHaveTags_components (oas : OpenAPI) (excl : List String) :
    (dropOperationsThatHaveTags oas excl).components = oas.components := by
  unfold dropOperationsThatHaveTags
  split <;> rfl

/-- Include filtering leaves the components block untouched. -/
theorem includeOperationsThatHaveTags_components (oas : OpenAPI) (incl : List String) :
    (includeOperationsThatHaveTags oas incl).components = oas.components := by
  unfold includeOperationsThatHaveTags
  split <;> rfl

/-- Operation selection leaves the components block untouched. -/
theorem runOperationSelection_components (oas : OpenAPI)
    (sel : Option OperationSelection) :
    (runOperationSelection oas sel).components = oas.components := by
  cases sel with
  | none => rfl
  | some selection =>
    simp only [runOperationSelection]
    split
    · rw [dropOperationsThatHaveTags_components]
      split
      · rw [includeOperationsThatHaveTags_components]
      · rfl
    · split
      · rw [includeOperationsThatHaveTags_components]
      · rfl

/-- Dropping empty path items leaves the components block untouched. -/
theorem dropPathItemsWithNoOperations_components (oas : OpenAPI) :
    (dropPathItemsWithNoOperations oas).components = oas.components := rfl

/-- The per-input component block realizes the first-non-empty rule on its
`securitySchemes` field. -/
theorem processInputComponents_securitySchemes (components : Components)
    (resultComponents : Components) (dispute : Option Dispute) (rm : RefMap)
    (rc : Components) (rm2 : RefMap)
    (h : processInputComponents components resultComponents dispute rm = .ok (rc, rm2)) :
    rc.securitySchemes =
      if resultComponents.securitySchemes.isEmpty && !components.securitySchemes.isEmpty then
        components.securitySchemes
      else resultComponents.securitySchemes := by
  simp only [processInputComponents] at h
  rcases bind_ok_elim _ _ _ h with ⟨⟨a1, m1⟩, _, h⟩
  rcases bind_ok_elim _ _ _ h with ⟨⟨a2, m2⟩, _, h⟩
  rcases bind_ok_elim _ _ _ h with ⟨⟨a3, m3⟩, _, h⟩
  rcases bind_ok_elim _ _ _ h with ⟨⟨a4, m4⟩, _, h⟩
  rcases bind_ok_elim _ _ _ h with ⟨⟨a5, m5⟩, _, h⟩
  rcases bind_ok_elim _ _ _ h with ⟨⟨a6, m6⟩, _, h⟩
  rcases bind_ok_elim _ _ _ h with ⟨⟨a7, m7⟩, _, h⟩
  rcases bind_ok_elim _ _ _ h with ⟨⟨a8, m8⟩, _, h⟩
  cases h
  rfl

/-- The `securitySchemes` map of an optional components block. -/
def securitySchemesOfOpt (componentsOpt : Option Components) :
    IndexMap (RefOr SecurityScheme) :=
  match componentsOpt with
  | some c => c.securitySchemes
  | none => []

/-- The components-presence guard realizes the first-non-empty rule. -/
theorem processComponentsIfPresent_securitySchemes (componentsOpt : Option Components)
    (resultComponents : Components) (dispute : Option Dispute) (rm : RefMap)
    (rc : Components) (rm2 : RefMap)
    (h : processComponentsIfPresent componentsOpt resultComponents dispute rm = .ok (rc, rm2)) :
    rc.securitySchemes =
      if resultComponents.securitySchemes.isEmpty &&
          !(securitySchemesOfOpt componentsOpt).isEmpty then
        securitySchemesOfOpt componentsOpt
      else resultComponents.securitySchemes := by
  cases componentsOpt with
  | none =>
    cases h
    simp [securitySchemesOfOpt]
  | some components => exact processInputComponents_securitySchemes _ _ _ _ _ _ h

/-- One input iteration realizes the first-non-empty rule on the
accumulator's `securitySchemes`. -/
theorem processInput_securitySchemes (inputIndex : Nat) (input : SingleMergeInput)
    (st st2 : MergeState) (h : processInput inputIndex input st = .ok st2) :
    st2.resultComponents.securitySchemes =
      if st.resultComponents.securitySchemes.isEmpty &&
          !(securitySchemesOf input.oas).isEmpty then
        securitySchemesOf input.oas
      else st.resultComponents.securitySchemes := by
  simp only [processInput] at h
  rcases bind_ok_elim _ _ _ h with ⟨⟨rc, rm⟩, h1, h⟩
  rcases bind_ok_elim _ _ _ h with ⟨⟨s2, rp2, rm2⟩, h2, h3⟩
  cases h3
  have hcomp : (dropPathItemsWithNoOperations
      (runOperationSelection input.oas input.operationSelection)).components =
      input.oas.components := by
    rw [dropPathItemsWithNoOperations_components, runOperationSelection_components]
  rw [hcomp] at h1
  have hss := processComponentsIfPresent_securitySchemes _ _ _ _ _ _ h1
  rw [hss]
  rfl

/-- Unfolding `claimedFirstSecuritySchemes` on a cons cell. -/
theorem claimedFirstSecuritySchemes_cons (input : SingleMergeInput)
    (rest : List SingleMergeInput) :
    claimedFirstSecuritySchemes (input :: rest) =
      if (securitySchemesOf input.oas).isEmpty then claimedFirstSecuritySchemes rest
      else securitySchemesOf input.oas := by
  rw [claimedFirstSecuritySchemes]
  cases hi : (securitySchemesOf input.oas).isEmpty <;> simp [hi]

/-- The input loop realizes the first-non-empty rule. -/
theorem mergeInputsLoop_securitySchemes : ∀ (inputs : List SingleMergeInput)
    (inputIndex : Nat) (st st2 : MergeState),
    mergeInputsLoop inputIndex inputs st = .ok st2 →
    st2.resultComponents.securitySchemes =
      if st.resultComponents.securitySchemes.isEmpty then claimedFirstSecuritySchemes inputs
      else st.resultComponents.securitySchemes
  | [], _, st, st2, h => by
    cases h
    cases he : st.resultComponents.securitySchemes.isEmpty with
    | true =>
      rw [List.isEmpty_iff] at he
      simp [claimedFirstSecuritySchemes, he]
    | false => simp [he]
  | input :: rest, inputIndex, st, st2, h => by
    simp only [mergeInputsLoop] at h
    rcases bind_ok_elim _ _ _ h with ⟨st1, h1, h2⟩
    have hstep := processInput_securitySchemes _ _ _ _ h1
    have hrest := mergeInputsLoop_securitySchemes rest (inputIndex + 1) st1 st2 h2
    rw [claimedFirstSecuritySchemes_cons]
    cases he : st.resultComponents.securitySchemes.isEmpty with
    | false =>
      rw [he] at hstep
      simp only [Bool.false_and, Bool.false_eq_true, if_false] at hstep
      rw [hrest, hstep, he]
      simp
    | true =>
      rw [he] at hstep
      simp only [Bool.true_and] at hstep
      cases hi : (securitySchemesOf input.oas).isEmpty with
      | true =>
        rw [hi] at hstep
        simp only [Bool.not_true, Bool.false_eq_true, if_false] at hstep
        rw [hrest, hstep, he]
        simp [hi]
      | false =>
        rw [hi] at hstep
        simp only [Bool.not_false, if_true] at hstep
        have hne : st1.resultComponents.securitySchemes.isEmpty = false := by
          rw [hstep]
          exact hi
        rw [hrest, hne, hstep]
        simp [hi, he]

/-- C8: for every successful merge, the output's `securitySchemes` map is
the entire map of the first input (in order) with a non-empty
`securitySchemes` map, subsequent inputs' schemes being ignored; empty when
no input has any. -/
theorem C8_security_schemes_first_wins (inputs : List SingleMergeInput)
    (version : Option String) (out : OpenAPI) (h : merge inputs version = .ok out) :
    securitySchemesOf out = claimedFirstSecuritySchemes inputs := by
  unfold merge at h
  cases inputs with
  | nil => cases h
  | cons first rest =>
    rcases bind_ok_elim _ _ _ h with ⟨⟨paths, components⟩, h1, h2⟩
    cases h2
    simp only [mergePathsAndComponents] at h1
    rcases bind_ok_elim _ _ _ h1 with ⟨st, h3, h4⟩
    cases h4
    have := mergeInputsLoop_securitySchemes (first :: rest) 0 {} st h3
    simp only [List.isEmpty_nil, if_true] at this
    exact this

/-- An input whose only content is a security scheme. -/
def exInputC8 : SingleMergeInput :=
  { oas := { openapi := "3.0.0", info := { title := "S", version := "1" }
             components := some
               { securitySchemes := [("apiKey", .item { payload := Json.null })] } } }

/-- C8 witness: a concrete merge whose output carries the first input's
security schemes. -/
theorem C8_witness :
    ∃ out, merge [exInputC8] none = Except.ok out ∧
      securitySchemesOf out = claimedFirstSecuritySchemes [exInputC8] :=
  ⟨_, rfl, C8_security_schemes_first_wins [exInputC8] none _ rfl⟩

/-! ## Lemmas for operation-id uniqueness (C9) -/

/-- Bookkeeping of one run of the id uniquifier: the starting seen-set is
preserved, the emitted ids are distinct, recorded as seen, and fresh
relative to the starting seen-set. -/
def IdChain (ids : List String) (seen0 seen1 : List String) : Prop :=
  (∀ x ∈ seen0, x ∈ seen1) ∧ ids.Nodup ∧ (∀ x ∈ ids, x ∈ seen1) ∧ (∀ x ∈ ids, x ∉ seen0)

theorem idChain_nil (s : List String) : IdChain [] s s :=
  ⟨fun _ hx => hx, List.nodup_nil, by simp, by simp⟩

theorem idChain_comp {a b s0 s1 s2 : List String} (h1 : IdChain a s0 s1)
    (h2 : IdChain b s1 s2) : IdChain (a ++ b) s0 s2 := by
  obtain ⟨m1, n1, i1, f1⟩ := h1
  obtain ⟨m2, n2, i2, f2⟩ := h2
  refine ⟨fun x hx => m2 x (m1 x hx), ?_, ?_, ?_⟩
  · rw [List.nodup_append]
    exact ⟨n1, n2, fun x hxa hxb => f2 x hxb (i1 x hxa)⟩
  · intro x hx
    rcases List.mem_append.mp hx with hx | hx
    · exact m2 x (i1 x hx)
    · exact i2 x hx
  · intro x hx
    rcases List.mem_append.mp hx with hx | hx
    · exact f1 x hx
    · exact fun hx0 => f2 x hx (m1 x hx0)

/-- A successfully chosen unique operation id is fresh. -/
theorem findUniqueOperationId_ok_fresh (operationId : String) (seen : List String)
    (dispute : Option Dispute) (uid : String)
    (h : findUniqueOperationId operationId seen dispute = .ok uid) : uid ∉ seen := by
  simp only [findUniqueOperationId] at h
  cases hc : seen.contains operationId with
  | false =>
    rw [hc] at h
    simp only [Bool.not_false, if_true] at h
    cases h
    simpa using hc
  | true =>
    rw [hc] at h
    simp only [Bool.not_true, Bool.false_eq_true, if_false] at h
    cases dispute with
    | none =>
      simp only at h
      cases hn : tryNumericOperationIds seen operationId 1 999 with
      | none => rw [hn] at h; cases h
      | some id2 =>
        rw [hn] at h
        cases h
        rw [tryNumericOperationIds_eq_find] at hn
        cases hf : (List.range' 1 999).find?
            (fun i => !seen.contains (operationId ++ toString i)) with
        | none => rw [hf] at hn; cases hn
        | some i =>
          rw [hf] at hn
          have hp := List.find?_some hf
          simp only [Option.map] at hn
          cases hn
          simpa using hp
    | some d =>
      simp only at h
      cases hd : seen.contains (applyDispute (some d) operationId .disputed) with
      | false =>
        rw [hd] at h
        simp only [Bool.not_false, if_true] at h
        cases h
        simpa using hd
      | true =>
        rw [hd] at h
        simp only [Bool.not_true, Bool.false_eq_true, if_false] at h
        cases hn : tryNumericOperationIds seen operationId 1 999 with
        | none => rw [hn] at h; cases h
        | some id2 =>
          rw [hn] at h
          cases h
          rw [tryNumericOperationIds_eq_find] at hn
          cases hf : (List.range' 1 999).find?
              (fun i => !seen.contains (operationId ++ toString i)) with
          | none => rw [hf] at hn; cases hn
          | some i =>
            rw [hf] at hn
            have hp := List.find?_some hf
            simp only [Option.map] at hn
            cases hn
            simpa using hp

/-- One slot of the uniquifier produces a valid id chain. -/
theorem ensureSlotUniqueOperationId_chain (slot : Option Operation) (seen : List String)
    (dispute : Option Dispute) (slot2 : Option Operation) (seen2 : List String)
    (h : ensureSlotUniqueOperationId slot seen dispute = .ok (slot2, seen2)) :
    IdChain (slotOperationIds slot2) seen seen2 := by
  cases slot with
  | none =>
    cases h
    exact idChain_nil seen
  | some op =>
    simp only [ensureSlotUniqueOperationId] at h
    cases hid : op.operationId with
    | none =>
      rw [hid] at h
      cases h
      simpa [slotOperationIds, hid] using idChain_nil seen
    | some operationId =>
      rw [hid] at h
      rcases bind_ok_elim _ _ _ h with ⟨uid, h1, h2⟩
      cases h2
      have hf := findUniqueOperationId_ok_fresh _ _ _ _ h1
      refine ⟨fun x hx => List.mem_cons_of_mem _ hx, by simp [slotOperationIds], ?_, ?_⟩
      · intro x hx
        simp only [slotOperationIds, Option.toList_some, List.mem_singleton] at hx
        rw [hx]
        exact List.mem_cons_self _ _
      · intro x hx
        simp only [slotOperationIds, Option.toList_some, List.mem_singleton] at hx
        rw [hx]
        exact hf

/-- The uniquifier on a full path item produces a valid id chain. -/
theorem ensureUniqueOperationIds_chain (item : RefOr PathItem) (seen : List String)
    (dispute : Option Dispute) (item2 : RefOr PathItem) (seen2 : List String)
    (h : ensureUniqueOperationIds item seen dispute = .ok (item2, seen2)) :
    IdChain (pathItemOperationIds item2) seen seen2 := by
  cases item with
  | reference r =>
    cases h
    simpa [pathItemOperationIds] using idChain_nil seen
  | item item =>
    simp only [ensureUniqueOperationIds] at h
    rcases bind_ok_elim _ _ _ h with ⟨⟨g, s1⟩, h1, h⟩
    rcases bind_ok_elim _ _ _ h with ⟨⟨pu, s2⟩, h2, h⟩
    rcases bind_ok_elim _ _ _ h with ⟨⟨po, s3⟩, h3, h⟩
    rcases bind_ok_elim _ _ _ h with ⟨⟨d, s4⟩, h4, h⟩
    rcases bind_ok_elim _ _ _ h with ⟨⟨pa, s5⟩, h5, h⟩
    rcases bind_ok_elim _ _ _ h with ⟨⟨hh, s6⟩, h6, h⟩
    rcases bind_ok_elim _ _ _ h with ⟨⟨t, s7⟩, h7, h⟩
    rcases bind_ok_elim _ _ _ h with ⟨⟨o, s8⟩, h8, h⟩
    cases h
    have c1 := ensureSlotUniqueOperationId_chain _ _ _ _ _ h1
    have c2 := ensureSlotUniqueOperationId_chain _ _ _ _ _ h2
    have c3 := ensureSlotUniqueOperationId_chain _ _ _ _ _ h3
    have c4 := ensureSlotUniqueOperationId_chain _ _ _ _ _ h4
    have c5 := ensureSlotUniqueOperationId_chain _ _ _ _ _ h5
    have c6 := ensureSlotUniqueOperationId_chain _ _ _ _ _ h6
    have c7 := ensureSlotUniqueOperationId_chain _ _ _ _ _ h7
    have c8 := ensureSlotUniqueOperationId_chain _ _ _ _ _ h8
    simp only [pathItemOperationIds]
    exact idChain_comp (idChain_comp (idChain_comp (idChain_comp (idChain_comp
      (idChain_comp (idChain_comp c1 c2) c3) c4) c5) c6) c7) c8

/-- The C9 invariant: the ids already in the accumulated paths are distinct
and recorded in the seen-set. -/
def PathsInv (rp : IndexMap (RefOr PathItem)) (seen : List String) : Prop :=
  (pathsOperationIds rp).Nodup ∧ ∀ x ∈ pathsOperationIds rp, x ∈ seen

/-- Inserting an absent key appends. -/
theorem imInsert_append {α : Type} : ∀ (m : IndexMap α) (k : String) (v : α),
    imContains m k = false → imInsert m k v = m ++ [(k, v)]
  | [], _, _, _ => rfl
  | (k2, v2) :: rest, k, v, hc => by
    simp only [imInsert]
    cases hk : k2 == k with
    | true =>
      exfalso
      simp [imContains, imGet, hk] at hc
    | false =>
      simp only [Bool.false_eq_true, if_false, List.cons_append, List.cons.injEq, true_and]
      refine imInsert_append rest k v ?_
      simpa [imContains, imGet, hk] using hc

theorem pathsOperationIds_append (a b : IndexMap (RefOr PathItem)) :
    pathsOperationIds (a ++ b) = pathsOperationIds a ++ pathsOperationIds b := by
  simp [pathsOperationIds]

/-- One per-path step preserves the C9 invariant. -/
theorem insertPathItem_inv (inputIndex : Nat) (pm : Option PathModification)
    (dispute : Option Dispute) (seen : List String) (rp : IndexMap (RefOr PathItem))
    (rm : RefMap) (orig : String) (item : RefOr PathItem)
    (seen2 : List String) (rp2 : IndexMap (RefOr PathItem)) (rm2 : RefMap)
    (hinv : PathsInv rp seen)
    (h : insertPathItem inputIndex pm dispute seen rp rm orig item = .ok (seen2, rp2, rm2)) :
    PathsInv rp2 seen2 := by
  simp only [insertPathItem] at h
  split at h
  · cases h
  · next hc =>
    rcases bind_ok_elim _ _ _ h with ⟨⟨item2, seenE⟩, h1, h2⟩
    cases h2
    have hchain := ensureUniqueOperationIds_chain _ _ _ _ _ h1
    obtain ⟨hm, hn, hi, hf⟩ := hchain
    obtain ⟨hnd, hmem⟩ := hinv
    rw [imInsert_append _ _ _ (by simpa using hc)]
    have happ : pathsOperationIds (rp ++ [(applyPathModification orig pm, item2)]) =
        pathsOperationIds rp ++ pathItemOperationIds item2 := by
      rw [pathsOperationIds_append]
      simp [pathsOperationIds]
    constructor
    · rw [happ, List.nodup_append]
      exact ⟨hnd, hn, fun x hxa hxb => hf x hxb (hmem x hxa)⟩
    · intro x hx
      rw [happ] at hx
      rcases List.mem_append.mp hx with hx | hx
      · exact hm x (hmem x hx)
      · exact hi x hx

/-- The per-input path loop preserves the C9 invariant. -/
theorem processPaths_inv : ∀ (paths : List (String × RefOr PathItem)) (inputIndex : Nat)
    (pm : Option PathModification) (dispute : Option Dispute) (seen : List String)
    (rp : IndexMap (RefOr PathItem)) (rm : RefMap)
    (seen2 : List String) (rp2 : IndexMap (RefOr PathItem)) (rm2 : RefMap),
    PathsInv rp seen →
    processPaths inputIndex pm dispute seen rp rm paths = .ok (seen2, rp2, rm2) →
    PathsInv rp2 seen2
  | [], _, _, _, _, _, _, _, _, _, hinv, h => by
    cases h
    exact hinv
  | (orig, item) :: rest, inputIndex, pm, dispute, seen, rp, rm, seen2, rp2, rm2, hinv, h => by
    simp only [processPaths] at h
    rcases bind_ok_elim _ _ _ h with ⟨⟨sE, rpE, rmE⟩, h1, h2⟩
    have hinv2 := insertPathItem_inv _ _ _ _ _ _ _ _ _ _ _ hinv h1
    exact processPaths_inv rest inputIndex pm dispute sE rpE rmE seen2 rp2 rm2 hinv2 h2

/-- One input iteration preserves the C9 invariant. -/
theorem processInput_inv (inputIndex : Nat) (input : SingleMergeInput) (st st2 : MergeState)
    (hinv : PathsInv st.resultPaths st.seenOperationIds)
    (h : processInput inputIndex input st = .ok st2) :
    PathsInv st2.resultPaths st2.seenOperationIds := by
  simp only [processInput] at h
  rcases bind_ok_elim _ _ _ h with ⟨⟨rc, rm⟩, _, h⟩
  rcases bind_ok_elim _ _ _ h with ⟨⟨s2, rp2, rm2⟩, h2, h3⟩
  cases h3
  exact processPaths_inv _ _ _ _ _ _ _ _ _ _ hinv h2

/-- The input loop preserves the C9 invariant. -/
theorem mergeInputsLoop_inv : ∀ (inputs : List SingleMergeInput) (inputIndex : Nat)
    (st st2 : MergeState),
    PathsInv st.resultPaths st.seenOperationIds →
    mergeInputsLoop inputIndex inputs st = .ok st2 →
    PathsInv st2.resultPaths st2.seenOperationIds
  | [], _, _, _, hinv, h => by
    cases h
    exact hinv
  | input :: rest, inputIndex, st, st2, hinv, h => by
    simp only [mergeInputsLoop] at h
    rcases bind_ok_elim _ _ _ h with ⟨st1, h1, h2⟩
    exact mergeInputsLoop_inv rest (inputIndex + 1) st1 st2
      (processInput_inv _ _ _ _ hinv h1) h2

/-- C9: the operation ids of a successfully merged paths map are pairwise
distinct, and the id chosen for one operation follows the claimed cascade:
an unseen id is kept, else the dispute-applied id when free, else the first
free id among `operationId ++ "1"` .. `++ "999"`, else the
`OperationIdConflict` error. -/
theorem C9_operation_ids_unique :
    (∀ (inputs : List SingleMergeInput) (paths : IndexMap (RefOr PathItem))
      (comps : Components),
      mergePathsAndComponents inputs = .ok (paths, comps) →
      (pathsOperationIds paths).Nodup) ∧
    (∀ (operationId : String) (seen : List String) (dispute : Option Dispute),
      findUniqueOperationId operationId seen dispute =
        claimedUniqueOperationId operationId seen dispute) := by
  constructor
  · intro inputs paths comps h
    simp only [mergePathsAndComponents] at h
    rcases bind_ok_elim _ _ _ h with ⟨st, h1, h2⟩
    cases h2
    have hinv0 : PathsInv ({} : MergeState).resultPaths ({} : MergeState).seenOperationIds := by
      constructor
      · simp [pathsOperationIds]
      · simp [pathsOperationIds]
    exact (mergeInputsLoop_inv inputs 0 {} st hinv0 h1).1
  · intro operationId seen dispute
    simp only [findUniqueOperationId, claimedUniqueOperationId]
    cases hc : seen.contains operationId with
    | false => simp
    | true =>
      simp only [Bool.not_true, Bool.false_eq_true, if_false]
      cases dispute with
      | none =>
        simp only [Option.map_none]
        rw [tryNumericOperationIds_eq_find]
        rfl
      | some d =>
        simp only [Option.map_some]
        cases hd : seen.contains (applyDispute (some d) operationId .disputed) with
        | false =>
          have hd2 : applyDispute (some d) operationId .disputed ∉ seen := by simpa using hd
          simp [hd, hd2]
        | true =>
          have hd2 : applyDispute (some d) operationId .disputed ∈ seen := by simpa using hd
          simp only [hd, Bool.not_true, Bool.false_eq_true, if_false]
          rw [tryNumericOperationIds_eq_find]
          simp [hd2, firstFreeNumericOperationId]

/-- An input with two operations sharing the id `x` on one path. -/
def exInputC9 : SingleMergeInput :=
  { oas := { openapi := "3.0.0", info := { title := "D", version := "1" }
             paths := [("/a", .item
               { get := some { tags := [], operationId := some "x", parameters := [],
                               requestBody := none, responses := [] }
                 put := some { tags := [], operationId := some "x", parameters := [],
                               requestBody := none, responses := [] } })] } }

/-- C9 witness: the merged ids of a concrete input with a duplicated id are
pairwise distinct. -/
theorem C9_witness :
    ∃ paths comps, mergePathsAndComponents [exInputC9] = Except.ok (paths, comps) ∧
      (pathsOperationIds paths).Nodup :=
  ⟨_, _, rfl, C9_operation_ids_unique.1 [exInputC9] _ _ rfl⟩

end OpenapiMerge
